import Mathlib

/-!
Verification of the SpaceAce state-container library (JonAbrams/SpaceAce).

The repository contains several iterations of the library.  We shallowly
embed the parts of each iteration that the specification's claims are
about:

* the function-style `Space` with structural sharing, `_newerSpaces`
  version chains and label-composing `notifySubscribers`
  (the iteration embedded in `README.md`, lines 207-516);
* the earlier function-style iteration whose `mergeSpace` rejects
  array targets (`lib/Space.js`, lines 439-775);
* the prototype-style iterations built around a mutable `preState`
  and `mergeState` (`lib/Space.js`, lines 1-438 and 776-1000);
* one definition explicitly modelled from the spec (per-change
  observer cancellation), whose implementing iteration is not among
  the source files.

JavaScript reference identity of `Space` objects is modelled with a
heap: every `new Space(...)` allocates a fresh numeric id, and `===`
on spaces is id equality.  Reference identity of frozen raw state
snapshots is modelled by structural equality (`RawVal.beq`); the raw
snapshots reachable here are shared frozen values, and no theorem in
this file distinguishes reference-distinct but structurally equal
snapshots.
-/

namespace SpaceAce

/-- Raw JavaScript values as they appear in states and patches:
primitives, plain objects, arrays, and references to already-built
`Space` objects (a caller may place a pre-built space in a patch). -/
inductive RawVal where
  | null
  | undef
  | nan
  | bool (b : Bool)
  | num (n : Int)
  | str (s : String)
  | obj (fields : List (String × RawVal))
  | arr (items : List RawVal)
  | spaceRef (id : Nat)

mutual

/-- Structural equality on raw values; stands in for the JavaScript
`===` comparison of frozen state snapshots (see the file comment). -/
def RawVal.beq : RawVal → RawVal → Bool
  | .null, .null => true
  | .undef, .undef => true
  | .nan, .nan => false
  | .bool a, .bool b => a == b
  | .num a, .num b => a == b
  | .str a, .str b => a == b
  | .obj a, .obj b => beqFields a b
  | .arr a, .arr b => beqItems a b
  | .spaceRef a, .spaceRef b => a == b
  | _, _ => false

def beqFields : List (String × RawVal) → List (String × RawVal) → Bool
  | [], [] => true
  | (k1, v1) :: r1, (k2, v2) :: r2 => k1 == k2 && RawVal.beq v1 v2 && beqFields r1 r2
  | _, _ => false

def beqItems : List RawVal → List RawVal → Bool
  | [], [] => true
  | v1 :: r1, v2 :: r2 => RawVal.beq v1 v2 && beqItems r1 r2
  | _, _ => false

end

/-- JavaScript truthiness of a raw value. -/
def jsTruthy : RawVal → Bool
  | .null | .undef | .nan => false
  | .bool b => b
  | .num n => n != 0
  | .str s => s ≠ ""
  | .obj _ => true
  | .arr _ => true
  | .spaceRef _ => true

/-- Is this value stored directly on a space (neither a plain object,
an array, nor a pre-built space)? -/
def isPrimB : RawVal → Bool
  | .obj _ => false
  | .arr _ => false
  | .spaceRef _ => false
  | _ => true

/-- `Array.isArray`. -/
def isArrB : RawVal → Bool
  | .arr _ => true
  | _ => false

/-- `isObject` from the source: a plain object. -/
def isObjB : RawVal → Bool
  | .obj _ => true
  | _ => false

/-- Association-list lookup (JavaScript property read on a plain object). -/
def lookupA {α : Type} : List (String × α) → String → Option α
  | [], _ => none
  | (k, v) :: rest, key => if k = key then some v else lookupA rest key

/-- Association-list assignment: overwrite in place if the key exists,
append otherwise (JavaScript property write on a plain object). -/
def setA {α : Type} : List (String × α) → String → α → List (String × α)
  | [], key, v => [(key, v)]
  | (k, w) :: rest, key, v =>
    if k = key then (k, v) :: rest else (k, w) :: setA rest key v

/-- `Object.assign(base, patch)` on plain-object field lists. -/
def objAssign (base patch : List (String × RawVal)) : List (String × RawVal) :=
  patch.foldl (fun acc kv => setA acc kv.1 kv.2) base

/-- `Object.keys` style enumeration of a raw value paired with the
values: object fields in insertion order, array items keyed by their
decimal index, nothing for primitives. -/
def jsEntriesRaw : RawVal → List (String × RawVal)
  | .obj fs => fs
  | .arr items => (items.enum).map (fun iv => (toString iv.1, iv.2))
  | _ => []

/-- What a key holds on a built space: a frozen primitive stored
directly (`Object.defineProperty(space, key, { value: val, ... })`),
or a child space (`space[key] = ...`). -/
inductive Entry where
  | prim (v : RawVal)
  | child (id : Nat)

/-- One built `Space` object of the function-style iteration embedded
in `README.md` (lines 335-463): its enumerable entries, its frozen
`_state` snapshot, `_name`, `_parent`, whether the underlying state is
an array, the shared `_subscribers` reference, and `_newerSpaces`
(head = most recently unshifted). -/
structure SpaceNode where
  entries : List (String × Entry)
  rawState : RawVal
  name : String
  parent : Option Nat
  isArr : Bool
  subsRef : Nat
  newer : List Nat

/-- The JavaScript heap restricted to `Space` objects and their shared
subscriber arrays.  `nodes` maps ids (allocation order) to spaces,
`subs` maps subscriber-array references to the registered observer
tokens in registration order. -/
structure Heap where
  nodes : List (Nat × SpaceNode)
  next : Nat
  subs : List (Nat × List Nat)
  subsNext : Nat

/-- Lookup in a `Nat`-keyed association list. -/
def lookupN {α : Type} : List (Nat × α) → Nat → Option α
  | [], _ => none
  | (k, v) :: rest, key => if k = key then some v else lookupN rest key

/-- Overwrite in a `Nat`-keyed association list (append if absent). -/
def setN {α : Type} : List (Nat × α) → Nat → α → List (Nat × α)
  | [], key, v => [(key, v)]
  | (k, w) :: rest, key, v =>
    if k = key then (k, v) :: rest else (k, w) :: setN rest key v

def Heap.get (h : Heap) (i : Nat) : Option SpaceNode := lookupN h.nodes i

/-- Placeholder dereference of a dangling space reference; reachable
heaps never hit it, theorems carry validity hypotheses. -/
def defaultNode : SpaceNode := ⟨[], .obj [], "", none, false, 0, []⟩

/-- Total node dereference. -/
def Heap.getN (h : Heap) (i : Nat) : SpaceNode := (h.get i).getD defaultNode

def Heap.setNode (h : Heap) (i : Nat) (n : SpaceNode) : Heap :=
  { h with nodes := setN h.nodes i n }

def Heap.valid (h : Heap) (i : Nat) : Prop := (h.get i).isSome

/-- The frozen `_state` of the space `i` (`space.toJSON()`). -/
def Heap.rawOf (h : Heap) (i : Nat) : RawVal := (h.getN i).rawState

/-- The observers registered on space `i`, in registration order. -/
def Heap.subsOf (h : Heap) (i : Nat) : List Nat :=
  (lookupN h.subs (h.getN i).subsRef).getD []

def emptyHeap : Heap := ⟨[], 0, [], 0⟩

/-- `space._newerSpaces[0]`. -/
def newerHead (h : Heap) (i : Nat) : Option Nat := (h.getN i).newer.head?

/-- `newestSpace` (README.md lines 231-234): follow the head of the
`_newerSpaces` chain to its end.  The recursion is fuelled; on every
heap whose chains are forward-only (ids strictly increase along them,
which construction guarantees), fuel `h.next` is enough and the chase
reaches a node with no newer version (proved below). -/
def newestAux (h : Heap) : Nat → Nat → Nat
  | 0, i => i
  | fuel + 1, i =>
    match newerHead h i with
    | some j => newestAux h fuel j
    | none => i

def newestSpaceF (h : Heap) (i : Nat) : Nat := newestAux h h.next i

/-- The forward-only chains are well formed: every allocated id is
below `next`, and every recorded newer version has a strictly larger
id, is allocated, and is below `next`. -/
def NewerWF (h : Heap) : Prop :=
  (∀ p ∈ h.nodes, p.1 < h.next) ∧
  ∀ p ∈ h.nodes, ∀ j ∈ p.2.newer, p.1 < j ∧ j < h.next ∧ h.valid j

/-- One step along the version chain. -/
def NewerStep (h : Heap) (i j : Nat) : Prop := newerHead h i = some j

/-- `isSimpleName` (README.md lines 291-293):
`/^[_$A-Za-z]([_$\w])*$/`. -/
def isSimpleName (s : String) : Bool :=
  match s.toList with
  | [] => false
  | c :: rest =>
    (c = '_' || c = '$' || c.isAlpha) &&
      rest.all (fun d => d = '_' || d = '$' || d.isAlpha || d.isDigit)

/-- `isNumeric` (README.md lines 295-298): `+name + '' === name`.  We
model the canonical-number test for the names that reach it here:
decimal natural numbers without leading zeros (list-item names are
array indices).  Other strings that JavaScript would also canonically
round-trip (negative or fractional numbers) cannot occur as child
names. -/
def isNumericName (s : String) : Bool :=
  match s.toList with
  | [] => false
  | ['0'] => true
  | c :: rest => c.isDigit && c ≠ '0' && rest.all Char.isDigit

/-- The label handed to the parent's observers (README.md lines
309-323): the child's name, bracketed when it is not a simple
identifier (and additionally quoted when it is not numeric), with a
`.` separator exactly when the child's label starts with neither `#`
nor `[`. -/
def parentLabel (name causedBy : String) : String :=
  let base :=
    if isSimpleName name then name
    else "[" ++ (if isNumericName name then name else "\"" ++ name ++ "\"") ++ "]"
  let base :=
    if causedBy.front ≠ '#' ∧ causedBy.front ≠ '[' then base ++ "." else base
  base ++ causedBy

/-- One observer invocation: the token of the observer and the
`{ newSpace, oldSpace, causedBy }` payload it receives. -/
structure Event where
  sub : Nat
  newSpace : Nat
  oldSpace : Option Nat
  causedBy : String

/-- `notifySubscribers` (README.md lines 300-329): synchronously
invoke the new space's observers in registration order, then recurse
to the parent with the composed label.  Fuelled on the ancestor-chain
depth. -/
def notifyF (h : Heap) : Nat → Nat → Option Nat → String → List Event
  | 0, _, _, _ => []
  | fuel + 1, newId, oldId, causedBy =>
    let own := (h.subsOf newId).map (fun s => Event.mk s newId oldId causedBy)
    match (h.getN newId).parent with
    | none => own
    | some p =>
      own ++ notifyF h fuel p (oldId.bind (fun o => (h.getN o).parent))
        (parentLabel (h.getN newId).name causedBy)

/-- Errors thrown by the embedded operations. -/
inductive Err where
  | fuelOut
  | replaceNonArray
  | typeErr
  | mergeOntoArray
  | unexpectedNull
  | missingListId

/-- The `oldSpace` argument of the `Space` constructor, and likewise
the `prevSpace` loop variable: absent, a previous space, or a
previously stored primitive. -/
inductive OldArg where
  | noneArg
  | node (i : Nat)
  | primv (v : RawVal)

/-- Truthiness of `oldSpace` (the `if (oldSpace)` guard). -/
def oldTruthy : OldArg → Bool
  | .noneArg => false
  | .node _ => true
  | .primv v => jsTruthy v

/-- The loose `oldSpace != null` test. -/
def oldLooseNonNull : OldArg → Bool
  | .noneArg => false
  | .node _ => true
  | .primv .null => false
  | .primv .undef => false
  | .primv _ => true

/-- `Array.isArray(oldSpace)`. -/
def oldIsArrayArg (h : Heap) : OldArg → Bool
  | .node i => (h.getN i).isArr
  | _ => false

/-- `oldSpace && oldSpace[key]`: the previous entry at `key`. -/
def oldLookup (h : Heap) (old : OldArg) (k : String) : OldArg :=
  match old with
  | .node o =>
    match lookupA (h.getN o).entries k with
    | some (.child c) => .node c
    | some (.prim v) => .primv v
    | none => .noneArg
  | _ => .noneArg

/-- The attribute loop of the `Space` constructor (README.md lines
407-427), abstracted over the recursive constructor `mk` used for
fresh children.  For each key: a pre-built space is adopted as the
child and its `_state` replaces the raw value in the new `_state`
(`state[key] = val._state`); else if the previous space at this key
has a `_state` identical to the new raw value, the previous child is
reused unchanged (structural sharing); else object/array values
become fresh child spaces and primitives are stored directly.
Returns the updated heap, the entry list, and the `_state` fields. -/
def buildEntriesWith
    (mk : Heap → RawVal → String → Option Nat → OldArg → Heap × Except Err Nat) :
    Heap → Nat → OldArg → List (String × RawVal) →
      Heap × Except Err (List (String × Entry) × List (String × RawVal))
  | h, _, _, [] => (h, .ok ([], []))
  | h, selfId, old, (k, v) :: rest =>
    match v with
    | .spaceRef c =>
      match buildEntriesWith mk h selfId old rest with
      | (h2, .error e) => (h2, .error e)
      | (h2, .ok (es, fs)) =>
        (h2, .ok ((k, Entry.child c) :: es, (k, h.rawOf c) :: fs))
    | _ =>
      match oldLookup h old k, isArrB v || isObjB v with
      | .node pid, _ =>
        if (h.rawOf pid).beq v then
          match buildEntriesWith mk h selfId old rest with
          | (h2, .error e) => (h2, .error e)
          | (h2, .ok (es, fs)) =>
            (h2, .ok ((k, Entry.child pid) :: es, (k, v) :: fs))
        else if isArrB v || isObjB v then
          match mk h v k (some selfId) (.node pid) with
          | (h2, .error e) => (h2, .error e)
          | (h2, .ok cid) =>
            match buildEntriesWith mk h2 selfId old rest with
            | (h3, .error e) => (h3, .error e)
            | (h3, .ok (es, fs)) =>
              (h3, .ok ((k, Entry.child cid) :: es, (k, v) :: fs))
        else
          match buildEntriesWith mk h selfId old rest with
          | (h2, .error e) => (h2, .error e)
          | (h2, .ok (es, fs)) => (h2, .ok ((k, Entry.prim v) :: es, (k, v) :: fs))
      | prevArg, true =>
        match mk h v k (some selfId) prevArg with
        | (h2, .error e) => (h2, .error e)
        | (h2, .ok cid) =>
          match buildEntriesWith mk h2 selfId old rest with
          | (h3, .error e) => (h3, .error e)
          | (h3, .ok (es, fs)) =>
            (h3, .ok ((k, Entry.child cid) :: es, (k, v) :: fs))
      | _, false =>
        match buildEntriesWith mk h selfId old rest with
        | (h2, .error e) => (h2, .error e)
        | (h2, .ok (es, fs)) => (h2, .ok ((k, Entry.prim v) :: es, (k, v) :: fs))

/-- An entry as it appears when the space is spread back into a raw
state (`asObj` / `slice`): child spaces stay spaces. -/
def entryToVal : Entry → RawVal
  | .prim v => v
  | .child c => .spaceRef c

/-- `Array.isArray(parent) ? parent.slice() : asObj(parent)` (README.md
lines 445-447). -/
def parentStateOf (h : Heap) (p : Nat) : RawVal :=
  let n := h.getN p
  if n.isArr then .arr (n.entries.map (fun ke => entryToVal ke.2))
  else .obj (n.entries.map (fun ke => (ke.1, entryToVal ke.2)))

/-- `newParentState[name] = space`: property write on an object, index
write on an array (child names of array parents are in-range decimal
indices). -/
def setKeyRaw : RawVal → String → RawVal → RawVal
  | .obj fs, k, v => .obj (setA fs k v)
  | .arr items, k, v =>
    match k.toNat? with
    | some i => if i < items.length then .arr (items.set i v) else .arr items
    | none => .arr items
  | w, _, _ => w

/-- Append a new version at the head of `_newerSpaces`
(`oldSpace._newerSpaces.unshift(space)`). -/
def Heap.unshiftNewer (h : Heap) (o selfId : Nat) : Heap :=
  h.setNode o { h.getN o with newer := selfId :: (h.getN o).newer }

/-- The `Space` constructor of the iteration embedded in `README.md`
(lines 335-463).  `new Space(state, name, parent, oldSpace)`:
normalises a falsy state to `{}`; rejects replacing a non-array
`oldSpace` with an array; allocates the space; runs the attribute
loop (`buildEntriesWith`); freezes the `_state`; then, when an
`oldSpace` is given, adopts its subscriber array, refreshes the
parent when the parent is fully baked (rebuilding the whole ancestor
chain through the recursive constructor call), and unshifts itself
onto `oldSpace._newerSpaces`.  A truthy non-space `oldSpace` crashes
at that unshift (`TypeError`), which we surface as `Err.typeErr`.
`mkSpaceCore` is the constructor body, abstracted over the recursive
constructor call `mk`; `mkSpaceF` ties the knot, fuelled on
constructor-nesting depth. -/
def mkSpaceCore
    (mk : Heap → RawVal → String → Option Nat → OldArg → Heap × Except Err Nat)
    (h0 : Heap) (state0 : RawVal) (name : String) (parent : Option Nat)
    (old : OldArg) : Heap × Except Err Nat :=
  let state := if jsTruthy state0 then state0 else .obj []
  if isArrB state && (oldLooseNonNull old && !oldIsArrayArg h0 old) then
    (h0, .error .replaceNonArray)
  else
    let selfId := h0.next
    let h1 : Heap := { h0 with next := h0.next + 1 }
    match buildEntriesWith mk h1 selfId old (jsEntriesRaw state) with
    | (h2, .error e) => (h2, .error e)
    | (h2, .ok (entries, stFields)) =>
      let isArr := isArrB state
      let rawState := if isArr then RawVal.arr (stFields.map Prod.snd)
        else RawVal.obj stFields
      match old with
      | .node o =>
        let ref := (h2.getN o).subsRef
        let h3 := h2.setNode selfId ⟨entries, rawState, name, parent, isArr, ref, []⟩
        match parent with
        | some p =>
          if (h3.get p).isSome then
            let pNew := newestSpaceF h3 p
            let pState := setKeyRaw (parentStateOf h3 pNew) name (.spaceRef selfId)
            match mk h3 pState (h3.getN pNew).name (h3.getN pNew).parent
                (.node pNew) with
            | (h4, .error e) => (h4, .error e)
            | (h4, .ok pid) =>
              let h5 := h4.setNode selfId { h4.getN selfId with parent := some pid }
              (h5.unshiftNewer o selfId, .ok selfId)
          else (h3.unshiftNewer o selfId, .ok selfId)
        | none => (h3.unshiftNewer o selfId, .ok selfId)
      | _ =>
        if oldTruthy old then
          let h3 := h2.setNode selfId ⟨entries, rawState, name, parent, isArr, 0, []⟩
          (h3, .error .typeErr)
        else
          let ref := h2.subsNext
          let h3 : Heap :=
            { h2 with subs := h2.subs ++ [(ref, [])], subsNext := h2.subsNext + 1 }
          let h4 := h3.setNode selfId ⟨entries, rawState, name, parent, isArr, ref, []⟩
          (h4, .ok selfId)

def mkSpaceF : Nat → Heap → RawVal → String → Option Nat → OldArg → Heap × Except Err Nat
  | 0, h, _, _, _, _ => (h, .error .fuelOut)
  | fuel + 1, h0, state0, name, parent, old =>
    mkSpaceCore (mkSpaceF fuel) h0 state0 name parent old

theorem mkSpaceF_succ (fuel : Nat) (h0 : Heap) (state0 : RawVal) (name : String)
    (parent : Option Nat) (old : OldArg) :
    mkSpaceF (fuel + 1) h0 state0 name parent old =
      mkSpaceCore (mkSpaceF fuel) h0 state0 name parent old := rfl

/-- `asObj` (README.md lines 256-262): copy the enumerable attributes
of a space into a plain object. -/
def asObjF (h : Heap) (s : Nat) : List (String × RawVal) :=
  (h.getN s).entries.map (fun ke => (ke.1, entryToVal ke.2))

/-- `mergeSpace` (README.md lines 273-280): construct a new space from
`Object.assign(asObj(oldSpace), mergeObj)`, parented at the newest
version of the old parent, with the old space as `oldSpace`. -/
def mergeSpaceF (fuel : Nat) (h : Heap) (s : Nat) (p : List (String × RawVal)) :
    Heap × Except Err Nat :=
  let state := RawVal.obj (objAssign (asObjF h s) p)
  let parentArg :=
    match (h.getN s).parent with
    | some pp => if (h.get pp).isSome then some (newestSpaceF h pp) else none
    | none => none
  mkSpaceF fuel h state (h.getN s).name parentArg (.node s)

/-- `replaceSpace` (README.md lines 282-289). -/
def replaceSpaceF (fuel : Nat) (h : Heap) (s : Nat) (newState : RawVal) :
    Heap × Except Err Nat :=
  let parentArg :=
    match (h.getN s).parent with
    | some pp => if (h.get pp).isSome then some (newestSpaceF h pp) else none
    | none => none
  mkSpaceF fuel h newState (h.getN s).name parentArg (.node s)

/-- `mergeAndNotifySubscribers` (README.md lines 264-271): fast-forward
the target along its version chain, merge, then notify. -/
def mergeAndNotifyF (fuel : Nat) (h : Heap) (s : Nat) (p : List (String × RawVal))
    (causedBy : String) : Heap × Except Err Nat × List Event :=
  let t := newestSpaceF h s
  match mergeSpaceF fuel h t p with
  | (h2, .error e) => (h2, .error e, [])
  | (h2, .ok n) => (h2, .ok n, notifyF h2 fuel n (some t) causedBy)

/-- `wrapParam` (README.md lines 222-229): the action-parameter bundle
wraps `mergeSpace`/`replaceSpace` so that each call first
fast-forwards the captured space to its newest version, applies the
wrapped operation there, and notifies. -/
def wrapParamF (param : Heap → Nat → RawVal → Heap × Except Err Nat)
    (causedBy : String) (fuel : Nat) (h : Heap) (s : Nat) (arg : RawVal) :
    Heap × Except Err Nat × List Event :=
  let t := newestSpaceF h s
  match param h t arg with
  | (h2, .error e) => (h2, .error e, [])
  | (h2, .ok n) => (h2, .ok n, notifyF h2 fuel n (some t) causedBy)

/-- The `merge` bundle parameter: `mergeSpace` on whatever argument the
action passed (`Object.assign` copies nothing from primitives). -/
def mergeParamF (fuel : Nat) (h : Heap) (t : Nat) (arg : RawVal) :
    Heap × Except Err Nat :=
  mergeSpaceF fuel h t (jsEntriesRaw arg)

/-- The `replace` bundle parameter. -/
def replaceParamF (fuel : Nat) (h : Heap) (t : Nat) (arg : RawVal) :
    Heap × Except Err Nat :=
  replaceSpaceF fuel h t arg

/-- Property read on a plain object, `undefined` otherwise. -/
def getFieldRaw (v : RawVal) (k : String) : RawVal :=
  match v with
  | .obj fs => (lookupA fs k).getD .undef
  | _ => RawVal.undef

/-- `parseInt(s, 10)` on the strings produced by input fields:
optional sign followed by leading digits, `NaN` when there are none. -/
def jsParseIntStr (s : String) : RawVal :=
  let chars := s.toList
  let (neg, rest) :=
    match chars with
    | '-' :: r => (true, r)
    | '+' :: r => (false, r)
    | r => (false, r)
  let digits := rest.takeWhile Char.isDigit
  if digits.isEmpty then .nan
  else
    let n : Int := digits.foldl (fun acc c => acc * 10 + (c.toNat - '0'.toNat)) 0
    .num (if neg then -n else n)

/-- `parseInt(target.value, 10)`. -/
def jsParseInt : RawVal → RawVal
  | .str s => jsParseIntStr s
  | .num n => .num n
  | _ => .nan

/-- The event-value extraction of `attrSetter` (README.md lines
356-366): when given a UI event (a truthy value with a truthy
`target`), coerce per the target type (`number` → parsed integer,
`checkbox` → checked flag, else the string value). -/
def extractEventValue (eventOrValue : RawVal) : RawVal :=
  if jsTruthy eventOrValue && jsTruthy (getFieldRaw eventOrValue "target") then
    let target := getFieldRaw eventOrValue "target"
    if (getFieldRaw target "type").beq (.str "number") then
      jsParseInt (getFieldRaw target "value")
    else if (getFieldRaw target "type").beq (.str "checkbox") then
      getFieldRaw target "checked"
    else getFieldRaw target "value"
  else eventOrValue

/-- `attrSetter` (README.md lines 352-369): the quick-field setter for
`key` merges `{ [key]: value }` with cause label `"#set:" ++ key`. -/
def attrSetterF (fuel : Nat) (h : Heap) (s : Nat) (key : String)
    (eventOrValue : RawVal) : Heap × Except Err Nat × List Event :=
  let causedBy := "#set:" ++ key
  let value := extractEventValue eventOrValue
  mergeAndNotifyF fuel h s [(key, value)] causedBy

/-- Calling a space as a function (README.md lines 342-393),
immediate behaviours: an object argument merges at once with label
`#actionName` / `#immediateMerge`; a string or function argument
returns a closure (modelled by `attrSetterF` / `actionWrapperF`
respectively); anything else falls through every branch, so the call
returns `undefined` and has no effect. -/
def spaceCallF (fuel : Nat) (h : Heap) (s : Nat) (arg : RawVal)
    (actionName : Option String) : Heap × Option (Except Err Nat) × List Event :=
  if isObjB arg then
    let causedBy := match actionName with | some n => "#" ++ n | none => "#immediateMerge"
    match mergeAndNotifyF fuel h s (jsEntriesRaw arg) causedBy with
    | (h2, r, evs) => (h2, some r, evs)
  else (h, none, [])

/-- `actionWrapper` (README.md lines 376-391), abstracted over the
action's own effect `act` (everything the action does through the
bundle parameters): after the action returns, the wrapper itself
creates no space and fires no notification; it only returns
`newestSpace(space)` (also as the resolution of a returned promise). -/
def actionWrapperF (h : Heap) (s : Nat) (act : Heap → Heap × RawVal) : Heap × Nat :=
  let hr := act h
  (hr.1, newestSpaceF hr.1 s)

/-- The static `subscribe` (README.md lines 486-488):
`space._subscribers.push(callback)` on the lineage-shared array. -/
def subscribeF (h : Heap) (s : Nat) (token : Nat) : Heap :=
  let ref := (h.getN s).subsRef
  { h with subs := setN h.subs ref (((lookupN h.subs ref).getD []) ++ [token]) }

/-- `createSpace` / `new Space(state)` (README.md lines 503-505). -/
def createSpaceF (fuel : Nat) (h : Heap) (state : RawVal) : Heap × Except Err Nat :=
  mkSpaceF fuel h state "" none .noneArg

/-!
The earlier function-style iteration (`lib/Space.js` lines 439-775):
no `_newerSpaces`, no structural sharing, and `mergeSpace` rejects
array targets.  Its `notifySubscribers` regenerates each ancestor
through `mergeAndNotifySubscribers` / `replaceAndNotifySubscribers`.
We reuse `Heap`/`SpaceNode` (the `newer` field stays empty).
-/

/-- The attribute loop of the v2 `Space` constructor (`lib/Space.js`
lines 678-690): pre-built spaces are adopted, objects and arrays
become fresh children (no previous-space reuse), primitives are
stored directly. -/
def buildEntriesV2With
    (mk : Heap → RawVal → String → Option Nat → Heap × Except Err Nat) :
    Heap → Nat → List (String × RawVal) → Heap × Except Err (List (String × Entry))
  | h, _, [] => (h, .ok [])
  | h, selfId, (k, v) :: rest =>
    match v with
    | .spaceRef c =>
      match buildEntriesV2With mk h selfId rest with
      | (h2, .error e) => (h2, .error e)
      | (h2, .ok es) => (h2, .ok ((k, Entry.child c) :: es))
    | _ =>
      if isArrB v || isObjB v then
        match mk h v k (some selfId) with
        | (h2, .error e) => (h2, .error e)
        | (h2, .ok cid) =>
          match buildEntriesV2With mk h2 selfId rest with
          | (h3, .error e) => (h3, .error e)
          | (h3, .ok es) => (h3, .ok ((k, Entry.child cid) :: es))
      else
        match buildEntriesV2With mk h selfId rest with
        | (h2, .error e) => (h2, .error e)
        | (h2, .ok es) => (h2, .ok ((k, Entry.prim v) :: es))

/-- The v2 `Space` constructor (`lib/Space.js` lines 600-718):
`new Space(state, name, parent, oldSpace)` normalises a falsy state,
builds the attributes, keeps `_state` as given, and adopts the
subscriber array of `oldSpace` when present.  No parent refresh and
no version chain. -/
def mkSpaceV2 : Nat → Heap → RawVal → String → Option Nat → Option Nat →
    Heap × Except Err Nat
  | 0, h, _, _, _, _ => (h, .error .fuelOut)
  | fuel + 1, h0, state0, name, parent, old =>
    let state := if jsTruthy state0 then state0 else .obj []
    let selfId := h0.next
    let h1 : Heap := { h0 with next := h0.next + 1 }
    match buildEntriesV2With (fun hh st nm pr => mkSpaceV2 fuel hh st nm pr none)
        h1 selfId (jsEntriesRaw state) with
    | (h2, .error e) => (h2, .error e)
    | (h2, .ok entries) =>
      let isArr := isArrB state
      match old with
      | some o =>
        let ref := (h2.getN o).subsRef
        (h2.setNode selfId ⟨entries, state, name, parent, isArr, ref, []⟩, .ok selfId)
      | none =>
        let ref := h2.subsNext
        let h3 : Heap :=
          { h2 with subs := h2.subs ++ [(ref, [])], subsNext := h2.subsNext + 1 }
        (h3.setNode selfId ⟨entries, state, name, parent, isArr, ref, []⟩, .ok selfId)

/-- `mergeSpace` of the v2 iteration (`lib/Space.js` lines 529-540):
an array-kind target throws `'You cannot merge onto an array, try
replace instead?'` before anything is constructed; otherwise the
merged space is built from `Object.assign({}, oldSpace.toJSON(),
mergeObj)`. -/
def mergeSpaceV2 (fuel : Nat) (h : Heap) (s : Nat) (p : List (String × RawVal)) :
    Heap × Except Err Nat :=
  if (h.getN s).isArr then (h, .error .mergeOntoArray)
  else
    mkSpaceV2 fuel h (.obj (objAssign (jsEntriesRaw (h.rawOf s)) p))
      (h.getN s).name (h.getN s).parent (some s)

/-- `replaceSpace` of the v2 iteration (`lib/Space.js` lines 550-552). -/
def replaceSpaceV2 (fuel : Nat) (h : Heap) (s : Nat) (newState : RawVal) :
    Heap × Except Err Nat :=
  mkSpaceV2 fuel h newState (h.getN s).name (h.getN s).parent (some s)

mutual

/-- `notifySubscribers` of the v2 iteration (`lib/Space.js` lines
554-594): notify the new space's observers, then regenerate the
parent — by replacement for array parents (note the source builds the
new parent state with `[].splice(name, 1, newSpace)`, which inserts
at index 0), by merge otherwise — composing the label with `[name]`
or `name` and a conditional dot. -/
def notifyV2 : Nat → Heap → Nat → Option Nat → String → Heap × List Event × Except Err Unit
  | 0, h, _, _, _ => (h, [], .error .fuelOut)
  | fuel + 1, h, newId, oldId, causedBy =>
    let own := (h.subsOf newId).map (fun s => Event.mk s newId oldId causedBy)
    match (h.getN newId).parent with
    | none => (h, own, .ok ())
    | some p =>
      let name := (h.getN newId).name
      if (h.getN p).isArr then
        let base := "[" ++ name ++ "]"
        let base := if causedBy.front ≠ '#' then base ++ "." else base
        let pcb := base ++ causedBy
        match replaceAndNotifyV2 fuel h p (.arr [.spaceRef newId]) pcb with
        | (h2, evs, .error e) => (h2, own ++ evs, .error e)
        | (h2, evs, .ok _) => (h2, own ++ evs, .ok ())
      else
        let base := if causedBy.front ≠ '#' ∧ causedBy.front ≠ '[' then name ++ "." else name
        let pcb := base ++ causedBy
        match mergeAndNotifyV2 fuel h p [(name, h.rawOf newId)] pcb with
        | (h2, evs, .error e) => (h2, own ++ evs, .error e)
        | (h2, evs, .ok _) => (h2, own ++ evs, .ok ())

/-- `mergeAndNotifySubscribers` of the v2 iteration (`lib/Space.js`
lines 521-527). -/
def mergeAndNotifyV2 : Nat → Heap → Nat → List (String × RawVal) → String →
    Heap × List Event × Except Err Nat
  | 0, h, _, _, _ => (h, [], .error .fuelOut)
  | fuel + 1, h, s, p, causedBy =>
    match mergeSpaceV2 (fuel + 1) h s p with
    | (h2, .error e) => (h2, [], .error e)
    | (h2, .ok n) =>
      match notifyV2 fuel h2 n (some s) causedBy with
      | (h3, evs, .error e) => (h3, evs, .error e)
      | (h3, evs, .ok ()) => (h3, evs, .ok n)

/-- `replaceAndNotifySubscribers` of the v2 iteration (`lib/Space.js`
lines 542-548). -/
def replaceAndNotifyV2 : Nat → Heap → Nat → RawVal → String →
    Heap × List Event × Except Err Nat
  | 0, h, _, _, _ => (h, [], .error .fuelOut)
  | fuel + 1, h, s, newState, causedBy =>
    match replaceSpaceV2 (fuel + 1) h s newState with
    | (h2, .error e) => (h2, [], .error e)
    | (h2, .ok n) =>
      match notifyV2 fuel h2 n (some s) causedBy with
      | (h3, evs, .error e) => (h3, evs, .error e)
      | (h3, evs, .ok ()) => (h3, evs, .ok n)

end

/-!
The prototype-style iterations of `lib/Space.js` built around a
mutable `preState` (`mergeState`, lines 145-177 of the first
iteration and 844-891 of the third).  The `undefined` and null-item
branches are verbatim identical in both; the object-merge tail below
follows the third iteration (lines 864-891), which also deletes keys
set to `null`.
-/

/-- A `preState` value of the prototype-style iterations: primitives,
plain objects, arrays, and nested `Space` instances carrying their own
`preState`. -/
inductive V3 where
  | prim (p : RawVal)
  | objv (fields : List (String × V3))
  | arrv (items : List V3)
  | spacev (pre : V3)

/-- `Object.keys` enumeration of a `preState` value. -/
def keysOfV3 : V3 → List (String × V3)
  | .objv fs => fs
  | .arrv items => (items.enum).map (fun iv => (toString iv.1, iv.2))
  | _ => []

def getKeyV3 : V3 → String → Option V3
  | .objv fs, k => lookupA fs k
  | .arrv items, k => k.toNat?.bind items.get?
  | _, _ => none

def setKeyV3 : V3 → String → V3 → V3
  | .objv fs, k, v => .objv (setA fs k v)
  | .arrv items, k, v =>
    match k.toNat? with
    | some i => if i < items.length then .arrv (items.set i v) else .arrv items
    | none => .arrv items
  | w, _, _ => w

/-- `delete state[key]` on a plain object. -/
def deleteKeyV3 : V3 → String → V3
  | .objv fs, k => .objv (fs.filter (fun kv => kv.1 ≠ k))
  | w, _ => w

/-- `generateState` of the third iteration (`lib/Space.js` lines
807-831): strip `Space` wrappers at the top, then one pass over the
keys, recursing into spaces and arrays but only shallow-copying plain
objects.  Fuelled on nesting depth. -/
def generateStateV3 : Nat → V3 → V3
  | 0, v => v
  | fuel + 1, .spacev pre => generateStateV3 fuel (generateStateV3 fuel pre)
  | fuel + 1, .objv fs =>
    .objv (fs.map (fun kv => (kv.1, generateItemV3 fuel kv.2)))
  | fuel + 1, .arrv items => .arrv (items.map (generateItemV3 fuel))
  | _ + 1, _ => .objv []
where
  /-- One key of the pass: spaces are stripped via their `state`
  getter, arrays map `generateState` over every item, plain objects
  are shallow-copied, primitives pass through. -/
  generateItemV3 : Nat → V3 → V3
  | fuel, .spacev pre => generateStateV3 fuel (generateStateV3 fuel pre)
  | fuel, .arrv items => .arrv (items.map (generateStateV3 fuel))
  | _, .objv fs => .objv fs
  | _, .prim p => .prim p

/-- `space.state.id` (the value behind the `key` getter installed by
`defineKeyGetter`); non-primitive ids do not occur in reachable
states. -/
def getStateIdV3 (fuel : Nat) (pre : V3) : RawVal :=
  match getKeyV3 (generateStateV3 fuel pre) "id" with
  | some (.prim p) => p
  | _ => RawVal.undef

/-- `String(x)` on the primitive values compared by `findIndexById`. -/
def jsValToString : RawVal → String
  | .str s => s
  | .num n => toString n
  | .bool b => cond b "true" "false"
  | .null => "null"
  | .nan => "NaN"
  | _ => "undefined"

/-- `arr[i].id || arr[i].key` for a list item: the `id` field of a
plain object, or the `key` getter (`state.id`) of a space. -/
def itemIdOrKeyV3 (fuel : Nat) : V3 → RawVal
  | .objv fs =>
    let idv := match lookupA fs "id" with | some (.prim p) => p | _ => .undef
    if jsTruthy idv then idv
    else match lookupA fs "key" with | some (.prim p) => p | _ => .undef
  | .spacev pre => getStateIdV3 fuel pre
  | _ => RawVal.undef

/-- `findIndexById` (`lib/Space.js` lines 40-46 and 778-784): first
index whose stringified `id || key` equals the stringified target,
`-1` when absent. -/
def findIndexByIdV3 (fuel : Nat) (items : List V3) (id : RawVal) : Int :=
  go items 0
where
  go : List V3 → Nat → Int
  | [], _ => -1
  | item :: rest, i =>
    if jsValToString (itemIdOrKeyV3 fuel item) = jsValToString id then Int.ofNat i
    else go rest (i + 1)

/-- `list.splice(index, 1)`: JavaScript clamps a negative index from
the end and an overlong index to the length. -/
def jsSplice1 (l : List V3) (index : Int) : List V3 :=
  let len : Int := l.length
  let actual : Nat := (if index < 0 then max (len + index) 0 else min index len).toNat
  l.eraseIdx actual

/-- The body of `applyMerge` of the third iteration (`lib/Space.js`
lines 834-841), abstracted over the recursive call: each merged key
either recurses into an existing child `Space`'s `preState` or
overwrites the key. -/
def applyMergeFieldsWith (am : V3 → V3 → V3) : V3 → List (String × V3) → V3
  | st, [] => st
  | st, (k, mv) :: rest =>
    let st2 :=
      match getKeyV3 st k with
      | some (.spacev inner) => setKeyV3 st k (.spacev (am inner mv))
      | _ => setKeyV3 st k mv
    applyMergeFieldsWith am st2 rest

/-- `applyMerge` of the third iteration (`lib/Space.js` lines 833-842). -/
def applyMergeV3 : Nat → V3 → V3 → V3
  | 0, st, _ => st
  | fuel + 1, st, m => applyMergeFieldsWith (applyMergeV3 fuel) st (keysOfV3 m)

/-- Is this merged value the literal `null`? -/
def isNullV3 : V3 → Bool
  | .prim .null => true
  | _ => false

/-- The id check over array-valued patch keys (`lib/Space.js` lines
874-883): every `Space` placed in a list must have a defined
`state.id` (the source also installs the `key` getter there, which we
carry as the `hasKeyGetter` argument of `mergeStateV3`). -/
def checkListsV3 (fuel : Nat) : List (String × V3) → Except Err Unit
  | [] => .ok ()
  | (_, .arrv items) :: rest =>
    if items.all (fun item =>
        match item with
        | .spacev pre =>
          match getKeyV3 (generateStateV3 fuel pre) "id" with
          | some (.prim .undef) => false
          | some _ => true
          | none => false
        | _ => true) then
      checkListsV3 fuel rest
    else .error .missingListId
  | _ :: rest => checkListsV3 fuel rest

/-- The merge argument of `mergeState`: the action may return
`undefined`, `null`, or a value. -/
inductive MergeArg where
  | undefArg
  | nullArg
  | valArg (v : V3)

/-- `mergeState` (`lib/Space.js` lines 844-891; its `undefined` and
null-item branches are lines 145-160 of the first iteration
verbatim).  Inputs are the space's `preState`, `name`, whether the
`key` getter is installed (list items), and the parent's `preState`.
Returns the new `preState`, the new parent `preState`, and whether
`notifyChange` fired.  `undefined` is a complete no-op; `null` on a
keyed list item splices the item out of the parent's list by id (a
`null` elsewhere crashes in `Object.keys(null)`, surfaced as
`Err.typeErr`); an array replaces the state; an object first deletes
every key set to `null`, then recursively merges the rest. -/
def mergeStateV3 (fuel : Nat) (pre : V3) (hasKeyGetter : Bool)
    (parentPre : Option V3) (mergeObj : MergeArg) :
    Except Err (V3 × Option V3 × Bool) :=
  match mergeObj with
  | .undefArg => .ok (pre, parentPre, false)
  | .nullArg =>
    let stateId := getStateIdV3 fuel pre
    if hasKeyGetter && jsTruthy stateId then
      let parentIsArr := match parentPre with | some (.arrv _) => true | _ => false
      if !jsTruthy stateId && !parentIsArr then .error .unexpectedNull
      else
        match parentPre with
        | some (.arrv list) =>
          let index := findIndexByIdV3 fuel list stateId
          .ok (pre, some (.arrv (jsSplice1 list index)), true)
        | _ => .error .typeErr
    else .error .typeErr
  | .valArg (.arrv items) => .ok (.arrv items, parentPre, true)
  | .valArg (.objv fields) =>
    match checkListsV3 fuel fields with
    | .error e => .error e
    | .ok () =>
      let pre1 := fields.foldl
        (fun acc kv => if isNullV3 kv.2 then deleteKeyV3 acc kv.1 else acc) pre
      let fields1 := fields.filter (fun kv => !isNullV3 kv.2)
      .ok (applyMergeV3 fuel pre1 (.objv fields1), parentPre, true)
  | .valArg other => .ok (applyMergeV3 fuel pre other, parentPre, true)

/-- `subSpace`'s name assignment (`lib/Space.js` lines 397 and 976):
items fetched by id from a list parent are named
`parentName ++ "[" ++ id ++ "]"`, object children keep their key. -/
def subSpaceNameV3 (parentName : String) (byId : Bool) (nameOrId : String) : String :=
  if byId then parentName ++ "[" ++ nameOrId ++ "]" else nameOrId

/-- The cause label of the prototype-style iterations (`lib/Space.js`
lines 333 and 845-846): `space.name ++ "#" ++ (actionName || 'unknown')`. -/
def actionLogV3 (name : String) (actionName : Option String) : String :=
  name ++ "#" ++ (match actionName with
    | some a => if a = "" then "unknown" else a
    | none => "unknown")

/-- Root-construction options of the first `lib/Space.js` iteration. -/
structure OptionsV1 where
  skipInitialNotification : Bool

/-- `Space.prototype.subscribe` (`lib/Space.js` lines 402-413): push
the observer, then invoke it once, synchronously, with
`'initialized'` — unless the space was created with
`skipInitialNotification`.  Returns the new subscriber list and the
labels delivered to the new observer at registration. -/
def subscribeV1 (opts : OptionsV1) (subscribers : List Nat) (subscriber : Nat) :
    List Nat × List String :=
  (subscribers ++ [subscriber],
   if opts.skipInitialNotification then [] else ["initialized"])

/-- One level of observer execution with cancellation: observers run
in registration order; an observer whose token satisfies `cancels` is
itself invoked and stops the pass. -/
def runSubsCancel (cancels : Nat → Bool) (mk : Nat → Event) :
    List Nat → List Event × Bool
  | [] => ([], false)
  | s :: rest =>
    if cancels s then ([mk s], true)
    else
      let ec := runSubsCancel cancels mk rest
      (mk s :: ec.1, ec.2)

/-- Modelled from the spec: the notification router of the final
iteration with per-change cancellation.  That iteration's
`lib/Space.js` is not among the source files — only its README
(`subscribe` section: "cancel: A function, when called, prevents
future subsribers from being called", "All future subscribers can be
skipped"), its type declarations (`Space.d.ts`, `cancel?(): void`)
and its tests ("can cancel future subscribers", which also asserts
that parent subscribers are never called) are.  As in
`notifySubscribers`, observers run in registration order and the pass
then recurses to the parent with the composed label; an observer that
calls `cancel` stops the remaining observers at its level and all
propagation to ancestors for this change. -/
def notifyCancelF (h : Heap) (cancels : Nat → Bool) :
    Nat → Nat → Option Nat → String → List Event
  | 0, _, _, _ => []
  | fuel + 1, newId, oldId, causedBy =>
    let oc := runSubsCancel cancels (fun s => Event.mk s newId oldId causedBy)
      (h.subsOf newId)
    if oc.2 then oc.1
    else
      match (h.getN newId).parent with
      | none => oc.1
      | some p =>
        oc.1 ++ notifyCancelF h cancels fuel p
          (oldId.bind (fun o => (h.getN o).parent))
          (parentLabel (h.getN newId).name causedBy)

/-!  Evaluation lemmas. -/

/-- Field lists whose values are all stored directly (no objects,
arrays or pre-built spaces). -/
def allPrim (fs : List (String × RawVal)) : Bool := fs.all (fun kv => isPrimB kv.2)

/-- The entries produced for an all-primitive field list. -/
def primEntries (fs : List (String × RawVal)) : List (String × Entry) :=
  fs.map (fun kv => (kv.1, Entry.prim kv.2))

/-- Entry lists with no child spaces. -/
def allPrimEntries (es : List (String × Entry)) : Bool :=
  es.all (fun ke => match ke.2 with | .prim _ => true | .child _ => false)

theorem oldLookup_noneArg (h : Heap) (k : String) :
    oldLookup h .noneArg k = .noneArg := rfl

theorem buildEntriesWith_prim (mk : Heap → RawVal → String → Option Nat → OldArg →
      Heap × Except Err Nat) (h : Heap) (selfId : Nat)
    (fs : List (String × RawVal)) (hp : allPrim fs = true) :
    buildEntriesWith mk h selfId .noneArg fs = (h, .ok (primEntries fs, fs)) := by
  induction fs with
  | nil => rfl
  | cons kv rest ih =>
    obtain ⟨k, v⟩ := kv
    simp only [allPrim, List.all_cons, Bool.and_eq_true] at hp
    have ih2 := ih hp.2
    cases v <;>
      simp_all [buildEntriesWith, oldLookup, isArrB, isObjB, isPrimB, primEntries]

/-- The loop against a previous space whose entries are all
primitives: structural sharing never fires, primitives are stored
directly. -/
theorem buildEntriesWith_prim_old (mk : Heap → RawVal → String → Option Nat → OldArg →
      Heap × Except Err Nat) (h : Heap) (selfId o : Nat)
    (fs : List (String × RawVal)) (hp : allPrim fs = true)
    (ho : allPrimEntries (h.getN o).entries = true) :
    buildEntriesWith mk h selfId (.node o) fs = (h, .ok (primEntries fs, fs)) := by
  induction fs with
  | nil => rfl
  | cons kv rest ih =>
    obtain ⟨k, v⟩ := kv
    simp only [allPrim, List.all_cons, Bool.and_eq_true] at hp
    have ih2 := ih hp.2
    have holk : oldLookup h (.node o) k = .noneArg ∨
        ∃ w, oldLookup h (.node o) k = .primv w := by
      simp only [oldLookup]
      cases hl : lookupA (h.getN o).entries k with
      | none => exact Or.inl rfl
      | some e =>
        cases e with
        | prim w => exact Or.inr ⟨w, rfl⟩
        | child c =>
          exfalso
          have : ∀ es, allPrimEntries es = true →
              lookupA es k ≠ some (Entry.child c) := by
            intro es hes
            induction es with
            | nil => simp [lookupA]
            | cons ke rest2 ih3 =>
              simp only [allPrimEntries, List.all_cons, Bool.and_eq_true] at hes
              simp only [lookupA]
              split
              · intro hcontra
                rw [show ke.2 = Entry.child c from Option.some.inj hcontra] at hes
                simp at hes
              · exact ih3 hes.2
          exact this _ ho hl
    rcases holk with hcase | ⟨w, hcase⟩ <;>
      cases v <;>
        simp_all [buildEntriesWith, isArrB, isObjB, isPrimB, primEntries]

theorem lookupA_setA_self {α : Type} (l : List (String × α)) (k : String) (v : α) :
    lookupA (setA l k v) k = some v := by
  induction l with
  | nil => simp [setA, lookupA]
  | cons kv rest ih =>
    by_cases hk : kv.1 = k <;> simp [setA, lookupA, hk, ih]

theorem lookupA_setA_other {α : Type} (l : List (String × α)) (k1 k : String) (v : α)
    (hne : k1 ≠ k) : lookupA (setA l k1 v) k = lookupA l k := by
  induction l with
  | nil => simp [setA, lookupA, hne]
  | cons kv rest ih =>
    obtain ⟨k0, v0⟩ := kv
    by_cases hk : k0 = k1
    · subst hk
      simp [setA, lookupA, hne, Ne.symm hne]
    · simp [setA, lookupA, hk, ih]

theorem objAssign_lookup_not_mem (base m : List (String × RawVal)) (k : String)
    (hk : k ∉ m.map Prod.fst) : lookupA (objAssign base m) k = lookupA base k := by
  induction m generalizing base with
  | nil => rfl
  | cons kv rest ih =>
    simp only [List.map_cons, List.mem_cons, not_or] at hk
    simp only [objAssign, List.foldl_cons]
    rw [show (rest.foldl (fun acc kv2 => setA acc kv2.1 kv2.2) (setA base kv.1 kv.2)) =
      objAssign (setA base kv.1 kv.2) rest from rfl, ih _ hk.2,
      lookupA_setA_other _ _ _ _ (Ne.symm hk.1)]

theorem objAssign_lookup_mem (base m : List (String × RawVal)) (k : String) (v : RawVal)
    (hnd : (m.map Prod.fst).Nodup) (hv : lookupA m k = some v) :
    lookupA (objAssign base m) k = some v := by
  induction m generalizing base with
  | nil => simp [lookupA] at hv
  | cons kv rest ih =>
    simp only [List.map_cons, List.nodup_cons] at hnd
    simp only [lookupA] at hv
    by_cases hk : kv.1 = k
    · subst hk
      simp only [if_pos rfl] at hv
      simp only [objAssign, List.foldl_cons]
      rw [show (rest.foldl (fun acc kv2 => setA acc kv2.1 kv2.2) (setA base kv.1 kv.2)) =
        objAssign (setA base kv.1 kv.2) rest from rfl,
        objAssign_lookup_not_mem _ _ _ hnd.1, lookupA_setA_self]
      exact hv
    · simp only [if_neg hk] at hv
      simp only [objAssign, List.foldl_cons]
      exact ih (setA base kv.1 kv.2) hnd.2 hv

theorem allPrim_setA (l : List (String × RawVal)) (k : String) (v : RawVal)
    (hl : allPrim l = true) (hv : isPrimB v = true) : allPrim (setA l k v) = true := by
  induction l with
  | nil => simp [setA, allPrim, hv]
  | cons kv rest ih =>
    simp only [allPrim, List.all_cons, Bool.and_eq_true] at hl
    by_cases hk : kv.1 = k
    · simp only [setA, if_pos hk, allPrim, List.all_cons, Bool.and_eq_true]
      exact ⟨hv, hl.2⟩
    · simp only [setA, if_neg hk, allPrim, List.all_cons, Bool.and_eq_true]
      exact ⟨hl.1, ih hl.2⟩

theorem allPrim_objAssign (base m : List (String × RawVal))
    (hb : allPrim base = true) (hm : allPrim m = true) :
    allPrim (objAssign base m) = true := by
  induction m generalizing base with
  | nil => exact hb
  | cons kv rest ih =>
    simp only [allPrim, List.all_cons, Bool.and_eq_true] at hm
    exact ih (setA base kv.1 kv.2) (allPrim_setA _ _ _ hb hm.1) hm.2

theorem allPrimEntries_primEntries (fs : List (String × RawVal)) :
    allPrimEntries (primEntries fs) = true := by
  induction fs with
  | nil => rfl
  | cons kv rest ih => simpa [primEntries, allPrimEntries] using ih

theorem asObj_primEntries (fs : List (String × RawVal)) :
    (primEntries fs).map (fun ke => (ke.1, entryToVal ke.2)) = fs := by
  induction fs with
  | nil => rfl
  | cons kv rest ih =>
    simp only [primEntries, List.map_cons] at *
    rw [ih]
    rfl

theorem lookupN_mem {α : Type} (l : List (Nat × α)) (i : Nat) (n : α)
    (hl : lookupN l i = some n) : (i, n) ∈ l := by
  induction l with
  | nil => simp [lookupN] at hl
  | cons kv rest ih =>
    obtain ⟨k0, v0⟩ := kv
    simp only [lookupN] at hl
    by_cases hk : k0 = i
    · subst hk
      simp at hl
      rw [← hl]
      exact List.mem_cons_self _ _
    · simp only [if_neg hk] at hl
      exact List.mem_cons_of_mem _ (ih hl)

/-- The loop over an all-adoption field list (every value is a
pre-built space): each child is adopted as-is and its `_state`
substituted into the new state. -/
theorem buildEntriesWith_adopt (mk : Heap → RawVal → String → Option Nat → OldArg →
      Heap × Except Err Nat) (h : Heap) (selfId : Nat) (old : OldArg)
    (rs : List (String × Nat)) :
    buildEntriesWith mk h selfId old (rs.map (fun kc => (kc.1, RawVal.spaceRef kc.2))) =
      (h, .ok (rs.map (fun kc => (kc.1, Entry.child kc.2)),
               rs.map (fun kc => (kc.1, h.rawOf kc.2)))) := by
  induction rs with
  | nil => rfl
  | cons kc rest ih => simp_all [buildEntriesWith]

/-- Constructing a space from an all-primitive object with no
`oldSpace`: one node and one fresh subscriber array are allocated. -/
theorem mkSpaceF_prim_none (fuel : Nat) (h : Heap) (fs : List (String × RawVal))
    (name : String) (parent : Option Nat) (hp : allPrim fs = true) :
    mkSpaceF (fuel + 1) h (.obj fs) name parent .noneArg =
      (⟨setN h.nodes h.next
          ⟨primEntries fs, .obj fs, name, parent, false, h.subsNext, []⟩,
        h.next + 1, h.subs ++ [(h.subsNext, [])], h.subsNext + 1⟩, .ok h.next) := by
  simp only [mkSpaceF_succ, mkSpaceCore, jsTruthy, isArrB, Bool.false_and, Bool.and_false, if_true,
    if_false, jsEntriesRaw]
  rw [buildEntriesWith_prim _ _ _ _ hp]
  rfl

/-- Constructing a space from an all-primitive object over a
parentless `oldSpace` whose entries are all primitives (the root
merge): one node is allocated, the subscriber array is shared, and the
new node is unshifted onto the old node's version chain. -/
theorem mkSpaceF_prim_merge_root (fuel : Nat) (h : Heap) (fs : List (String × RawVal))
    (name : String) (o : Nat) (hp : allPrim fs = true)
    (ho : allPrimEntries (h.getN o).entries = true) :
    mkSpaceF (fuel + 1) h (.obj fs) name none (.node o) =
      (Heap.unshiftNewer
        ⟨setN h.nodes h.next
            ⟨primEntries fs, .obj fs, name, none, false, (h.getN o).subsRef, []⟩,
          h.next + 1, h.subs, h.subsNext⟩ o h.next, .ok h.next) := by
  have ho2 : allPrimEntries
      ((Heap.mk h.nodes (h.next + 1) h.subs h.subsNext).getN o).entries = true := ho
  simp only [mkSpaceF_succ, mkSpaceCore, jsTruthy, isArrB, Bool.false_and, Bool.and_false, if_true,
    if_false, jsEntriesRaw]
  rw [buildEntriesWith_prim_old _ _ _ _ _ hp ho2]
  rfl

/-- `latest` always terminates and reaches the end of the
forward-only chain: on any heap with well-formed version chains,
`newestSpaceF` computes a node reachable from the start by
newer-version steps that itself has no newer version. -/
theorem newestSpaceF_end (h : Heap) (hwf : NewerWF h) (i : Nat) (hv : h.valid i) :
    Relation.ReflTransGen (NewerStep h) i (newestSpaceF h i) ∧
      newerHead h (newestSpaceF h i) = none := by
  suffices haux : ∀ fuel j, h.valid j → h.next ≤ fuel + j →
      Relation.ReflTransGen (NewerStep h) j (newestAux h fuel j) ∧
        newerHead h (newestAux h fuel j) = none by
    have hlt : i < h.next := by
      simp only [Heap.valid, Heap.get, Option.isSome_iff_exists] at hv
      obtain ⟨n, hn⟩ := hv
      exact hwf.1 _ (lookupN_mem _ _ _ hn)
    exact haux h.next i hv (Nat.le_add_right _ _)
  intro fuel
  induction fuel with
  | zero =>
    intro j hv hle
    have hlt : j < h.next := by
      simp only [Heap.valid, Heap.get, Option.isSome_iff_exists] at hv
      obtain ⟨n, hn⟩ := hv
      exact hwf.1 _ (lookupN_mem _ _ _ hn)
    omega
  | succ fuel ih =>
    intro j hv hle
    simp only [Heap.valid, Heap.get, Option.isSome_iff_exists] at hv
    obtain ⟨n, hn⟩ := hv
    cases hhd : newerHead h j with
    | none =>
      constructor
      · simp only [newestAux, hhd]
        exact Relation.ReflTransGen.refl
      · simp [newestAux, hhd]
    | some m =>
      have hmem : m ∈ n.newer := by
        simp only [newerHead, Heap.getN, Heap.get, hn, Option.getD_some] at hhd
        cases hnw : n.newer with
        | nil => rw [hnw] at hhd; simp at hhd
        | cons a t =>
          rw [hnw] at hhd
          simp only [List.head?_cons, Option.some.injEq] at hhd
          rw [← hhd]
          exact List.mem_cons_self _ _
      obtain ⟨hjm, hmn, hvm⟩ := hwf.2 _ (lookupN_mem _ _ _ hn) m hmem
      have step : NewerStep h j m := hhd
      have hrec := ih m hvm (by omega)
      constructor
      · simp only [newestAux, hhd]
        exact Relation.ReflTransGen.head step hrec.1
      · simp only [newestAux, hhd]
        exact hrec.2

/-!  Claim scenarios. -/

/-- Build a root space from an object of primitive fields and capture
the reference `c0` (node 0). -/
def primRootBuild (fuel : Nat) (fs : List (String × RawVal)) : Heap × Except Err Nat :=
  createSpaceF (fuel + 1) emptyHeap (.obj fs)

/-- Perform an external mutation (a direct merge call on the root)
while `c0` is still held. -/
def primRootMerged (fuel : Nat) (fs m : List (String × RawVal)) :
    Heap × Option (Except Err Nat) × List Event :=
  spaceCallF (fuel + 1) (primRootBuild fuel fs).1 0 (.obj m) none

theorem primRootBuild_eval (fuel : Nat) (fs : List (String × RawVal)) (hfs : allPrim fs = true) :
    primRootBuild fuel fs =
      (⟨[(0, ⟨primEntries fs, .obj fs, "", none, false, 0, []⟩)], 1, [(0, [])], 1⟩,
        .ok 0) := by
  unfold primRootBuild createSpaceF
  rw [mkSpaceF_prim_none _ _ _ _ _ hfs]
  rfl

theorem primRootMerged_eval (fuel : Nat) (fs m : List (String × RawVal))
    (hfs : allPrim fs = true) (hm : allPrim m = true) :
    primRootMerged fuel fs m =
      (⟨[(0, ⟨primEntries fs, .obj fs, "", none, false, 0, [1]⟩),
         (1, ⟨primEntries (objAssign fs m), .obj (objAssign fs m), "", none, false, 0, []⟩)],
        2, [(0, [])], 1⟩, some (.ok 1), []) := by
  unfold primRootMerged spaceCallF
  rw [primRootBuild_eval fuel fs hfs]
  have hmm : allPrim (objAssign fs m) = true := allPrim_objAssign _ _ hfs hm
  simp only [isObjB, if_true, jsEntriesRaw, mergeAndNotifyF, mergeSpaceF, asObjF,
    Heap.getN, Heap.get, lookupN, if_pos rfl, Option.getD_some, asObj_primEntries,
    newestSpaceF, newestAux, newerHead, List.head?]
  rw [mkSpaceF_prim_merge_root fuel _ _ _ 0 hmm
    (by simp [Heap.getN, Heap.get, lookupN, allPrimEntries_primEntries])]
  simp [notifyF, Heap.subsOf, Heap.getN, Heap.get, lookupN, Heap.unshiftNewer,
    Heap.setNode, setN]

/-- Claim C3: for a node reference `c0` (node 0, built by
`createSpace` from any all-primitive object) captured before an
external mutation (a direct merge that changes the value at key `k`),
`latest(c0)` afterwards returns the new node (node 1), whose value
reflects the mutation, while `c0` itself still holds its old
pre-mutation value; and in general `latest` follows the forward-only
next-version chain to its end and always terminates (on every heap
with well-formed chains it reaches, by newer-version steps, a node
with no newer version). -/
theorem spaceace_c3_latest_resolution (fuel : Nat) (fs m : List (String × RawVal))
    (k : String) (v : RawVal) (hfs : allPrim fs = true) (hm : allPrim m = true)
    (hnd : (m.map Prod.fst).Nodup) (hmk : lookupA m k = some v)
    (hdiff : lookupA fs k ≠ some v) :
    (∀ h i, NewerWF h → h.valid i →
      Relation.ReflTransGen (NewerStep h) i (newestSpaceF h i) ∧
        newerHead h (newestSpaceF h i) = none) ∧
    (primRootBuild fuel fs).2 = .ok 0 ∧
    newestSpaceF (primRootMerged fuel fs m).1 0 = 1 ∧
    Relation.ReflTransGen (NewerStep (primRootMerged fuel fs m).1) 0 1 ∧
    (primRootMerged fuel fs m).1.rawOf 1 = .obj (objAssign fs m) ∧
    lookupA (objAssign fs m) k = some v ∧
    (primRootMerged fuel fs m).1.rawOf 0 = .obj fs ∧
    (primRootMerged fuel fs m).1.rawOf 1 ≠ (primRootMerged fuel fs m).1.rawOf 0 := by
  have hassign : lookupA (objAssign fs m) k = some v :=
    objAssign_lookup_mem _ _ _ _ hnd hmk
  refine ⟨fun h i hwf hv => newestSpaceF_end h hwf i hv, ?_⟩
  rw [primRootBuild_eval fuel fs hfs, primRootMerged_eval fuel fs m hfs hm]
  refine ⟨rfl, ?_, ?_, ?_, hassign, ?_, ?_⟩
  · simp [newestSpaceF, newestAux, newerHead, Heap.getN, Heap.get, lookupN]
  · exact Relation.ReflTransGen.single (by
      simp [NewerStep, newerHead, Heap.getN, Heap.get, lookupN])
  · simp [Heap.rawOf, Heap.getN, Heap.get, lookupN]
  · simp [Heap.rawOf, Heap.getN, Heap.get, lookupN]
  · simp only [Heap.rawOf, Heap.getN, Heap.get, lookupN]
    norm_num
    intro heq
    exact hdiff (by rw [← heq]; exact hassign)

/-- Witness for C3 at a concrete input. -/
theorem spaceace_c3_latest_resolution_witness :
    (allPrim [("x", RawVal.num 1)] = true ∧ allPrim [("x", RawVal.num 2)] = true ∧
      ([("x", RawVal.num 2)].map Prod.fst).Nodup ∧
      lookupA [("x", RawVal.num 2)] "x" = some (RawVal.num 2) ∧
      lookupA [("x", RawVal.num 1)] "x" ≠ some (RawVal.num 2)) ∧
    ((∀ h i, NewerWF h → h.valid i →
      Relation.ReflTransGen (NewerStep h) i (newestSpaceF h i) ∧
        newerHead h (newestSpaceF h i) = none) ∧
    (primRootBuild 1 [("x", RawVal.num 1)]).2 = .ok 0 ∧
    newestSpaceF (primRootMerged 1 [("x", RawVal.num 1)] [("x", RawVal.num 2)]).1 0 = 1 ∧
    Relation.ReflTransGen
      (NewerStep (primRootMerged 1 [("x", RawVal.num 1)] [("x", RawVal.num 2)]).1) 0 1 ∧
    (primRootMerged 1 [("x", RawVal.num 1)] [("x", RawVal.num 2)]).1.rawOf 1 =
      .obj (objAssign [("x", RawVal.num 1)] [("x", RawVal.num 2)]) ∧
    lookupA (objAssign [("x", RawVal.num 1)] [("x", RawVal.num 2)]) "x" =
      some (RawVal.num 2) ∧
    (primRootMerged 1 [("x", RawVal.num 1)] [("x", RawVal.num 2)]).1.rawOf 0 =
      .obj [("x", RawVal.num 1)] ∧
    (primRootMerged 1 [("x", RawVal.num 1)] [("x", RawVal.num 2)]).1.rawOf 1 ≠
      (primRootMerged 1 [("x", RawVal.num 1)] [("x", RawVal.num 2)]).1.rawOf 0) :=
  ⟨⟨by decide, by decide, by decide, by rfl, by simp [lookupA]⟩,
    spaceace_c3_latest_resolution 1 [("x", RawVal.num 1)] [("x", RawVal.num 2)] "x"
      (RawVal.num 2) (by decide) (by decide) (by decide) (by rfl) (by simp [lookupA])⟩

/-- Merging a primitive patch onto any parentless node whose entries
are all primitives: the general root-merge evaluation. -/
theorem mergeSpaceF_prim_eval (fuel : Nat) (h : Heap) (s : Nat)
    (g p : List (String × RawVal))
    (hent : (h.getN s).entries = primEntries g)
    (hpar : (h.getN s).parent = none)
    (hg : allPrim g = true) (hp : allPrim p = true) :
    mergeSpaceF (fuel + 1) h s p =
      (Heap.unshiftNewer
        ⟨setN h.nodes h.next
            ⟨primEntries (objAssign g p), .obj (objAssign g p), (h.getN s).name, none,
              false, (h.getN s).subsRef, []⟩,
          h.next + 1, h.subs, h.subsNext⟩ s h.next, .ok h.next) := by
  simp only [mergeSpaceF, asObjF, hent, hpar, asObj_primEntries]
  rw [mkSpaceF_prim_merge_root fuel _ _ _ s (allPrim_objAssign _ _ hg hp)
    (by rw [hent]; exact allPrimEntries_primEntries g)]

/-- Replacing an all-prim state onto any parentless node whose entries
are all primitives: the general root-replace evaluation. -/
theorem replaceSpaceF_prim_eval (fuel : Nat) (h : Heap) (s : Nat)
    (g p : List (String × RawVal))
    (hent : (h.getN s).entries = primEntries g)
    (hpar : (h.getN s).parent = none)
    (hp : allPrim p = true) :
    replaceSpaceF (fuel + 1) h s (.obj p) =
      (Heap.unshiftNewer
        ⟨setN h.nodes h.next
            ⟨primEntries p, .obj p, (h.getN s).name, none, false, (h.getN s).subsRef,
              []⟩,
          h.next + 1, h.subs, h.subsNext⟩ s h.next, .ok h.next) := by
  simp only [replaceSpaceF, hpar]
  rw [mkSpaceF_prim_merge_root fuel _ _ _ s hp
    (by rw [hent]; exact allPrimEntries_primEntries g)]

/-- Claim C9: every merge or replace first fast-forwards its target
along the version chain.  With `s` the stale captured reference
(node 0, whose newest version is node 1 with state `objAssign fs
m1`), a direct merge call on `s` and a merge through the
action-parameter bundle both apply the patch `p` to `latest(s)` — the
new node's state is `objAssign (objAssign fs m1) p`, built from node
1's state, not from `s`'s snapshot `fs` — so keys not named in `p`
retain the newest version's values; and a replace through the
action-parameter bundle likewise targets `latest(s)`: the replacement
node (node 2, holding exactly the new state `p`) supersedes node 1 —
it is unshifted onto node 1's version chain, node 0's chain is
untouched, and `latest(s)` resolves to it. -/
theorem spaceace_c9_merge_fast_forwards (fuel : Nat) (fs m1 p : List (String × RawVal))
    (cb : String) (hfs : allPrim fs = true) (hm1 : allPrim m1 = true)
    (hp : allPrim p = true) :
    newestSpaceF (primRootMerged fuel fs m1).1 0 = 1 ∧
    (primRootMerged fuel fs m1).1.rawOf 1 = .obj (objAssign fs m1) ∧
    (mergeAndNotifyF (fuel + 1) (primRootMerged fuel fs m1).1 0 p cb).2.1 = .ok 2 ∧
    (mergeAndNotifyF (fuel + 1) (primRootMerged fuel fs m1).1 0 p cb).1.rawOf 2 =
      .obj (objAssign (objAssign fs m1) p) ∧
    (wrapParamF (mergeParamF (fuel + 1)) cb (fuel + 1)
        (primRootMerged fuel fs m1).1 0 (.obj p)).2.1 = .ok 2 ∧
    (wrapParamF (mergeParamF (fuel + 1)) cb (fuel + 1)
        (primRootMerged fuel fs m1).1 0 (.obj p)).1.rawOf 2 =
      .obj (objAssign (objAssign fs m1) p) ∧
    (wrapParamF (replaceParamF (fuel + 1)) cb (fuel + 1)
        (primRootMerged fuel fs m1).1 0 (.obj p)).2.1 = .ok 2 ∧
    (wrapParamF (replaceParamF (fuel + 1)) cb (fuel + 1)
        (primRootMerged fuel fs m1).1 0 (.obj p)).1.rawOf 2 = .obj p ∧
    ((wrapParamF (replaceParamF (fuel + 1)) cb (fuel + 1)
        (primRootMerged fuel fs m1).1 0 (.obj p)).1.getN 1).newer = [2] ∧
    ((wrapParamF (replaceParamF (fuel + 1)) cb (fuel + 1)
        (primRootMerged fuel fs m1).1 0 (.obj p)).1.getN 0).newer = [1] ∧
    newestSpaceF (wrapParamF (replaceParamF (fuel + 1)) cb (fuel + 1)
        (primRootMerged fuel fs m1).1 0 (.obj p)).1 0 = 2 ∧
    (∀ k2, k2 ∉ p.map Prod.fst →
      lookupA (objAssign (objAssign fs m1) p) k2 = lookupA (objAssign fs m1) k2) := by
  have hH1 : (primRootMerged fuel fs m1).1 =
      ⟨[(0, ⟨primEntries fs, .obj fs, "", none, false, 0, [1]⟩),
        (1, ⟨primEntries (objAssign fs m1), .obj (objAssign fs m1), "", none, false, 0,
          []⟩)],
        2, [(0, [])], 1⟩ := by
    rw [primRootMerged_eval fuel fs m1 hfs hm1]
  have hnewest : newestSpaceF (primRootMerged fuel fs m1).1 0 = 1 := by
    rw [hH1]
    simp [newestSpaceF, newestAux, newerHead, Heap.getN, Heap.get, lookupN]
  have hsecond : mergeSpaceF (fuel + 1) (primRootMerged fuel fs m1).1 1 p =
      (⟨[(0, ⟨primEntries fs, .obj fs, "", none, false, 0, [1]⟩),
         (1, ⟨primEntries (objAssign fs m1), .obj (objAssign fs m1), "", none, false, 0,
            [2]⟩),
         (2, ⟨primEntries (objAssign (objAssign fs m1) p),
            .obj (objAssign (objAssign fs m1) p), "", none, false, 0, []⟩)],
        3, [(0, [])], 1⟩, .ok 2) := by
    rw [hH1]
    rw [mergeSpaceF_prim_eval fuel
      ⟨[(0, ⟨primEntries fs, .obj fs, "", none, false, 0, [1]⟩),
        (1, ⟨primEntries (objAssign fs m1), .obj (objAssign fs m1), "", none, false, 0,
          []⟩)],
        2, [(0, [])], 1⟩ 1 (objAssign fs m1) p rfl rfl
      (allPrim_objAssign _ _ hfs hm1) hp]
    rfl
  have hdirect : mergeAndNotifyF (fuel + 1) (primRootMerged fuel fs m1).1 0 p cb =
      ((mergeSpaceF (fuel + 1) (primRootMerged fuel fs m1).1 1 p).1, .ok 2, []) := by
    simp only [mergeAndNotifyF, hnewest]
    rw [hsecond]
    simp [notifyF, Heap.subsOf, Heap.getN, Heap.get, lookupN]
  have hwrap : wrapParamF (mergeParamF (fuel + 1)) cb (fuel + 1)
      (primRootMerged fuel fs m1).1 0 (.obj p) =
      ((mergeSpaceF (fuel + 1) (primRootMerged fuel fs m1).1 1 p).1, .ok 2, []) := by
    simp only [wrapParamF, hnewest, mergeParamF, jsEntriesRaw]
    rw [hsecond]
    simp [notifyF, Heap.subsOf, Heap.getN, Heap.get, lookupN]
  have hreplace : replaceSpaceF (fuel + 1) (primRootMerged fuel fs m1).1 1 (.obj p) =
      (⟨[(0, ⟨primEntries fs, .obj fs, "", none, false, 0, [1]⟩),
         (1, ⟨primEntries (objAssign fs m1), .obj (objAssign fs m1), "", none, false, 0,
            [2]⟩),
         (2, ⟨primEntries p, .obj p, "", none, false, 0, []⟩)],
        3, [(0, [])], 1⟩, .ok 2) := by
    rw [hH1]
    rw [replaceSpaceF_prim_eval fuel
      ⟨[(0, ⟨primEntries fs, .obj fs, "", none, false, 0, [1]⟩),
        (1, ⟨primEntries (objAssign fs m1), .obj (objAssign fs m1), "", none, false, 0,
          []⟩)],
        2, [(0, [])], 1⟩ 1 (objAssign fs m1) p rfl rfl hp]
    rfl
  have hwrapR : wrapParamF (replaceParamF (fuel + 1)) cb (fuel + 1)
      (primRootMerged fuel fs m1).1 0 (.obj p) =
      ((replaceSpaceF (fuel + 1) (primRootMerged fuel fs m1).1 1 (.obj p)).1,
        .ok 2, []) := by
    simp only [wrapParamF, hnewest, replaceParamF]
    rw [hreplace]
    simp [notifyF, Heap.subsOf, Heap.getN, Heap.get, lookupN]
  refine ⟨hnewest, ?_, ?_, ?_, ?_, ?_, ?_, ?_, ?_, ?_, ?_, ?_⟩
  · rw [hH1]
    simp [Heap.rawOf, Heap.getN, Heap.get, lookupN]
  · rw [hdirect]
  · rw [hdirect, hsecond]
    simp [Heap.rawOf, Heap.getN, Heap.get, lookupN]
  · rw [hwrap]
  · rw [hwrap, hsecond]
    simp [Heap.rawOf, Heap.getN, Heap.get, lookupN]
  · rw [hwrapR]
  · rw [hwrapR, hreplace]
    simp [Heap.rawOf, Heap.getN, Heap.get, lookupN]
  · rw [hwrapR, hreplace]
    simp [Heap.getN, Heap.get, lookupN]
  · rw [hwrapR, hreplace]
    simp [Heap.getN, Heap.get, lookupN]
  · rw [hwrapR, hreplace]
    simp [newestSpaceF, newestAux, newerHead, Heap.getN, Heap.get, lookupN]
  · intro k2 hk2
    exact objAssign_lookup_not_mem _ _ _ hk2

/-- Witness for C9 at a concrete input. -/
theorem spaceace_c9_merge_fast_forwards_witness :
    (allPrim [("a", RawVal.num 1), ("b", RawVal.num 2)] = true ∧
      allPrim [("b", RawVal.num 3)] = true ∧ allPrim [("a", RawVal.num 4)] = true) ∧
    (newestSpaceF
        (primRootMerged 1 [("a", RawVal.num 1), ("b", RawVal.num 2)]
          [("b", RawVal.num 3)]).1 0 = 1 ∧
    (primRootMerged 1 [("a", RawVal.num 1), ("b", RawVal.num 2)]
        [("b", RawVal.num 3)]).1.rawOf 1 =
      .obj (objAssign [("a", RawVal.num 1), ("b", RawVal.num 2)] [("b", RawVal.num 3)]) ∧
    (mergeAndNotifyF 2
        (primRootMerged 1 [("a", RawVal.num 1), ("b", RawVal.num 2)]
          [("b", RawVal.num 3)]).1 0 [("a", RawVal.num 4)] "#m").2.1 = .ok 2 ∧
    (mergeAndNotifyF 2
        (primRootMerged 1 [("a", RawVal.num 1), ("b", RawVal.num 2)]
          [("b", RawVal.num 3)]).1 0 [("a", RawVal.num 4)] "#m").1.rawOf 2 =
      .obj (objAssign
        (objAssign [("a", RawVal.num 1), ("b", RawVal.num 2)] [("b", RawVal.num 3)])
        [("a", RawVal.num 4)]) ∧
    (wrapParamF (mergeParamF 2) "#m" 2
        (primRootMerged 1 [("a", RawVal.num 1), ("b", RawVal.num 2)]
          [("b", RawVal.num 3)]).1 0 (.obj [("a", RawVal.num 4)])).2.1 = .ok 2 ∧
    (wrapParamF (mergeParamF 2) "#m" 2
        (primRootMerged 1 [("a", RawVal.num 1), ("b", RawVal.num 2)]
          [("b", RawVal.num 3)]).1 0 (.obj [("a", RawVal.num 4)])).1.rawOf 2 =
      .obj (objAssign
        (objAssign [("a", RawVal.num 1), ("b", RawVal.num 2)] [("b", RawVal.num 3)])
        [("a", RawVal.num 4)]) ∧
    (wrapParamF (replaceParamF 2) "#m" 2
        (primRootMerged 1 [("a", RawVal.num 1), ("b", RawVal.num 2)]
          [("b", RawVal.num 3)]).1 0 (.obj [("a", RawVal.num 4)])).2.1 = .ok 2 ∧
    (wrapParamF (replaceParamF 2) "#m" 2
        (primRootMerged 1 [("a", RawVal.num 1), ("b", RawVal.num 2)]
          [("b", RawVal.num 3)]).1 0 (.obj [("a", RawVal.num 4)])).1.rawOf 2 =
      .obj [("a", RawVal.num 4)] ∧
    ((wrapParamF (replaceParamF 2) "#m" 2
        (primRootMerged 1 [("a", RawVal.num 1), ("b", RawVal.num 2)]
          [("b", RawVal.num 3)]).1 0 (.obj [("a", RawVal.num 4)])).1.getN 1).newer =
      [2] ∧
    ((wrapParamF (replaceParamF 2) "#m" 2
        (primRootMerged 1 [("a", RawVal.num 1), ("b", RawVal.num 2)]
          [("b", RawVal.num 3)]).1 0 (.obj [("a", RawVal.num 4)])).1.getN 0).newer =
      [1] ∧
    newestSpaceF (wrapParamF (replaceParamF 2) "#m" 2
        (primRootMerged 1 [("a", RawVal.num 1), ("b", RawVal.num 2)]
          [("b", RawVal.num 3)]).1 0 (.obj [("a", RawVal.num 4)])).1 0 = 2 ∧
    (∀ k2, k2 ∉ [("a", RawVal.num 4)].map Prod.fst →
      lookupA (objAssign
        (objAssign [("a", RawVal.num 1), ("b", RawVal.num 2)] [("b", RawVal.num 3)])
        [("a", RawVal.num 4)]) k2 =
      lookupA (objAssign [("a", RawVal.num 1), ("b", RawVal.num 2)]
        [("b", RawVal.num 3)]) k2)) :=
  ⟨⟨by decide, by decide, by decide⟩,
    spaceace_c9_merge_fast_forwards 1 [("a", RawVal.num 1), ("b", RawVal.num 2)]
      [("b", RawVal.num 3)] [("a", RawVal.num 4)] "#m" (by decide) (by decide)
      (by decide)⟩

theorem lookupN_setN_self {α : Type} (l : List (Nat × α)) (k : Nat) (v : α) :
    lookupN (setN l k v) k = some v := by
  induction l with
  | nil => simp [setN, lookupN]
  | cons kv rest ih =>
    by_cases hk : kv.1 = k <;> simp [setN, lookupN, hk, ih]

/-- Register a list of observers on node `s`, in order. -/
def subscribeAllF (h : Heap) (s : Nat) (tokens : List Nat) : Heap :=
  tokens.foldl (fun hh t => subscribeF hh s t) h

theorem subscribeF_subs (h : Heap) (s t : Nat) :
    subscribeF h s t =
      ⟨h.nodes, h.next,
        setN h.subs (h.getN s).subsRef
          (((lookupN h.subs (h.getN s).subsRef).getD []) ++ [t]), h.subsNext⟩ := rfl

theorem subscribeAllF_nodes (h : Heap) (s : Nat) (tokens : List Nat) :
    (subscribeAllF h s tokens).nodes = h.nodes := by
  induction tokens generalizing h with
  | nil => rfl
  | cons t rest ih => simpa [subscribeAllF, subscribeF] using ih _

/-- Building the spec's two-child root: `R` with object children at
`kA` and `kB` (node ids: root 0, child A 1, child B 2). -/
def twoChildBuild (fuel : Nat) (kA kB : String) (fA fB : List (String × RawVal)) :
    Heap × Except Err Nat :=
  createSpaceF (fuel + 1 + 1) emptyHeap (.obj [(kA, .obj fA), (kB, .obj fB)])

theorem twoChildBuild_eval (fuel : Nat) (kA kB : String)
    (fA fB : List (String × RawVal)) (hfA : allPrim fA = true)
    (hfB : allPrim fB = true) :
    twoChildBuild fuel kA kB fA fB =
      (⟨[(1, ⟨primEntries fA, .obj fA, kA, some 0, false, 0, []⟩),
         (2, ⟨primEntries fB, .obj fB, kB, some 0, false, 1, []⟩),
         (0, ⟨[(kA, .child 1), (kB, .child 2)], .obj [(kA, .obj fA), (kB, .obj fB)],
            "", none, false, 2, []⟩)],
        3, [(0, []), (1, []), (2, [])], 3⟩, .ok 0) := by
  unfold twoChildBuild createSpaceF
  have hbuild : buildEntriesWith (mkSpaceF (fuel + 1))
      ⟨[], 1, [], 0⟩ 0 .noneArg [(kA, .obj fA), (kB, .obj fB)] =
      (⟨[(1, ⟨primEntries fA, .obj fA, kA, some 0, false, 0, []⟩),
         (2, ⟨primEntries fB, .obj fB, kB, some 0, false, 1, []⟩)],
        3, [(0, []), (1, [])], 2⟩,
       .ok ([(kA, Entry.child 1), (kB, Entry.child 2)],
            [(kA, .obj fA), (kB, .obj fB)])) := by
    simp only [buildEntriesWith, oldLookup, isArrB, isObjB, Bool.false_or]
    rw [mkSpaceF_prim_none fuel ⟨[], 1, [], 0⟩ fA kA (some 0) hfA]
    norm_num [setN]
    rw [mkSpaceF_prim_none fuel ⟨[(1, ⟨primEntries fA, .obj fA, kA, some 0, false, 0,
      []⟩)], 2, [(0, [])], 1⟩ fB kB (some 0) hfB]
    rfl
  simp only [mkSpaceF_succ, mkSpaceCore, jsTruthy, isArrB, Bool.false_and, Bool.and_false, if_true,
    if_false, jsEntriesRaw, emptyHeap]
  rw [show (Heap.mk [] (0 + 1) [] 0) = Heap.mk [] 1 [] 0 by norm_num] at *
  rw [hbuild]
  rfl

/-- Mutating only child A: a merge applied to node 1 (child A) of the
two-child root. -/
def twoChildMerged (fuel : Nat) (kA kB : String) (fA fB p : List (String × RawVal)) :
    Heap × Except Err Nat :=
  mergeSpaceF (fuel + 1 + 1) (twoChildBuild fuel kA kB fA fB).1 1 p

/-- Merging a primitive patch onto child A (node 1) of the two-child
heap, for any contents of the subscriber store: the new child A is
node 3, the refreshed root is node 4 adopting the untouched child B
(node 2), and both old nodes gain a newer version. -/
theorem mergeChildA_eval (fuel : Nat) (kA kB : String)
    (fA fB p : List (String × RawVal)) (S : List (Nat × List Nat)) (sn : Nat)
    (hfA : allPrim fA = true) (hfB : allPrim fB = true) (hp : allPrim p = true) :
    mergeSpaceF (fuel + 1 + 1)
      ⟨[(1, ⟨primEntries fA, .obj fA, kA, some 0, false, 0, []⟩),
        (2, ⟨primEntries fB, .obj fB, kB, some 0, false, 1, []⟩),
        (0, ⟨[(kA, .child 1), (kB, .child 2)], .obj [(kA, .obj fA), (kB, .obj fB)],
          "", none, false, 2, []⟩)],
        3, S, sn⟩ 1 p =
      (⟨[(1, ⟨primEntries fA, .obj fA, kA, some 0, false, 0, [3]⟩),
         (2, ⟨primEntries fB, .obj fB, kB, some 0, false, 1, []⟩),
         (0, ⟨[(kA, .child 1), (kB, .child 2)], .obj [(kA, .obj fA), (kB, .obj fB)],
            "", none, false, 2, [4]⟩),
         (3, ⟨primEntries (objAssign fA p), .obj (objAssign fA p), kA, some 4, false,
            0, []⟩),
         (4, ⟨[(kA, .child 3), (kB, .child 2)],
            .obj [(kA, .obj (objAssign fA p)), (kB, .obj fB)], "", none, false, 2,
            []⟩)],
        5, S, sn⟩, .ok 3) := by
  simp only [mergeSpaceF, asObjF, Heap.getN, Heap.get, lookupN, Option.getD_some,
    asObj_primEntries]
  norm_num
  rw [asObj_primEntries]
  simp only [newestSpaceF, newestAux, newerHead, Heap.getN, Heap.get, lookupN,
    List.head?]
  norm_num
  simp only [mkSpaceF_succ, mkSpaceCore, jsTruthy, isArrB, Bool.false_and, Bool.and_false, if_true,
    if_false, jsEntriesRaw]
  rw [buildEntriesWith_prim_old _ _ _ 1 _ (allPrim_objAssign _ _ hfA hp)
    (by norm_num [Heap.getN, Heap.get, lookupN]; exact allPrimEntries_primEntries fA)]
  simp only [Heap.setNode, setN, Heap.getN, Heap.get, lookupN]
  norm_num
  simp only [newestSpaceF, newestAux, newerHead, Heap.getN, Heap.get, lookupN,
    List.head?, parentStateOf, entryToVal, setKeyRaw, setA, if_pos rfl]
  norm_num
  rw [show setA [(kA, RawVal.spaceRef 1), (kB, RawVal.spaceRef 2)] kA
      (RawVal.spaceRef 3) = [(kA, RawVal.spaceRef 3), (kB, RawVal.spaceRef 2)] by
    simp [setA]]
  simp only [buildEntriesWith, Heap.rawOf, Heap.getN, Heap.get, lookupN]
  norm_num [Heap.unshiftNewer, Heap.setNode, setN, Heap.getN, Heap.get, lookupN]

theorem twoChildMerged_eval (fuel : Nat) (kA kB : String)
    (fA fB p : List (String × RawVal)) (hfA : allPrim fA = true)
    (hfB : allPrim fB = true) (hp : allPrim p = true) :
    twoChildMerged fuel kA kB fA fB p =
      (⟨[(1, ⟨primEntries fA, .obj fA, kA, some 0, false, 0, [3]⟩),
         (2, ⟨primEntries fB, .obj fB, kB, some 0, false, 1, []⟩),
         (0, ⟨[(kA, .child 1), (kB, .child 2)], .obj [(kA, .obj fA), (kB, .obj fB)],
            "", none, false, 2, [4]⟩),
         (3, ⟨primEntries (objAssign fA p), .obj (objAssign fA p), kA, some 4, false,
            0, []⟩),
         (4, ⟨[(kA, .child 3), (kB, .child 2)],
            .obj [(kA, .obj (objAssign fA p)), (kB, .obj fB)], "", none, false, 2,
            []⟩)],
        5, [(0, []), (1, []), (2, [])], 3⟩, .ok 3) := by
  unfold twoChildMerged
  rw [show (twoChildBuild fuel kA kB fA fB).1 =
      ⟨[(1, ⟨primEntries fA, .obj fA, kA, some 0, false, 0, []⟩),
        (2, ⟨primEntries fB, .obj fB, kB, some 0, false, 1, []⟩),
        (0, ⟨[(kA, .child 1), (kB, .child 2)], .obj [(kA, .obj fA), (kB, .obj fB)],
          "", none, false, 2, []⟩)],
        3, [(0, []), (1, []), (2, [])], 3⟩ by
    rw [twoChildBuild_eval fuel kA kB fA fB hfA hfB]]
  rw [mergeChildA_eval fuel kA kB fA fB p _ _ hfA hfB hp]

/-- Claim C1: for a root `R` (node 0) with object-shaped children A
(node 1, at key `kA`) and B (node 2, at key `kB`), a merge patch that
touches only child A produces a new root (node 4) whose entry at `kB`
is the identical prior child instance — the same node id 2, whose
record is unchanged — while the entry at `kA` is a new node instance
(node 3, distinct from node 1). -/
theorem spaceace_c1_structural_sharing (fuel : Nat) (kA kB : String)
    (fA fB p : List (String × RawVal)) (hk : kA ≠ kB) (hfA : allPrim fA = true)
    (hfB : allPrim fB = true) (hp : allPrim p = true) :
    (twoChildBuild fuel kA kB fA fB).2 = .ok 0 ∧
    lookupA ((twoChildBuild fuel kA kB fA fB).1.getN 0).entries kA =
      some (.child 1) ∧
    lookupA ((twoChildBuild fuel kA kB fA fB).1.getN 0).entries kB =
      some (.child 2) ∧
    (twoChildMerged fuel kA kB fA fB p).2 = .ok 3 ∧
    ((twoChildMerged fuel kA kB fA fB p).1.getN 3).parent = some 4 ∧
    lookupA ((twoChildMerged fuel kA kB fA fB p).1.getN 4).entries kB =
      some (.child 2) ∧
    (twoChildMerged fuel kA kB fA fB p).1.getN 2 =
      (twoChildBuild fuel kA kB fA fB).1.getN 2 ∧
    lookupA ((twoChildMerged fuel kA kB fA fB p).1.getN 4).entries kA =
      some (.child 3) ∧
    (3 : Nat) ≠ 1 := by
  rw [twoChildBuild_eval fuel kA kB fA fB hfA hfB,
    twoChildMerged_eval fuel kA kB fA fB p hfA hfB hp]
  refine ⟨rfl, ?_, ?_, rfl, ?_, ?_, ?_, ?_, by decide⟩ <;>
    simp [Heap.getN, Heap.get, lookupN, lookupA, hk]

/-- Witness for C1 at a concrete input. -/
theorem spaceace_c1_structural_sharing_witness :
    (("a" : String) ≠ "b" ∧ allPrim [("x", RawVal.num 1)] = true ∧
      allPrim [("y", RawVal.num 2)] = true ∧ allPrim [("x", RawVal.num 5)] = true) ∧
    ((twoChildBuild 0 "a" "b" [("x", RawVal.num 1)] [("y", RawVal.num 2)]).2 =
        .ok 0 ∧
    lookupA ((twoChildBuild 0 "a" "b" [("x", RawVal.num 1)]
        [("y", RawVal.num 2)]).1.getN 0).entries "a" = some (.child 1) ∧
    lookupA ((twoChildBuild 0 "a" "b" [("x", RawVal.num 1)]
        [("y", RawVal.num 2)]).1.getN 0).entries "b" = some (.child 2) ∧
    (twoChildMerged 0 "a" "b" [("x", RawVal.num 1)] [("y", RawVal.num 2)]
        [("x", RawVal.num 5)]).2 = .ok 3 ∧
    ((twoChildMerged 0 "a" "b" [("x", RawVal.num 1)] [("y", RawVal.num 2)]
        [("x", RawVal.num 5)]).1.getN 3).parent = some 4 ∧
    lookupA ((twoChildMerged 0 "a" "b" [("x", RawVal.num 1)] [("y", RawVal.num 2)]
        [("x", RawVal.num 5)]).1.getN 4).entries "b" = some (.child 2) ∧
    (twoChildMerged 0 "a" "b" [("x", RawVal.num 1)] [("y", RawVal.num 2)]
        [("x", RawVal.num 5)]).1.getN 2 =
      (twoChildBuild 0 "a" "b" [("x", RawVal.num 1)] [("y", RawVal.num 2)]).1.getN 2 ∧
    lookupA ((twoChildMerged 0 "a" "b" [("x", RawVal.num 1)] [("y", RawVal.num 2)]
        [("x", RawVal.num 5)]).1.getN 4).entries "a" = some (.child 3) ∧
    (3 : Nat) ≠ 1) :=
  ⟨⟨by decide, by decide, by decide, by decide⟩,
    spaceace_c1_structural_sharing 0 "a" "b" [("x", RawVal.num 1)]
      [("y", RawVal.num 2)] [("x", RawVal.num 5)] (by decide) (by decide) (by decide)
      (by decide)⟩

theorem setN_setN {α : Type} (l : List (Nat × α)) (k : Nat) (a b : α) :
    setN (setN l k a) k b = setN l k b := by
  induction l with
  | nil => simp [setN]
  | cons kv rest ih =>
    by_cases hk : kv.1 = k <;> simp [setN, hk, ih]

theorem setN_lookup_self {α : Type} (l : List (Nat × α)) (k : Nat) (v : α)
    (h : lookupN l k = some v) : setN l k v = l := by
  induction l with
  | nil => simp [lookupN] at h
  | cons kv rest ih =>
    obtain ⟨k0, v0⟩ := kv
    by_cases hk : k0 = k
    · subst hk
      simp only [lookupN] at h
      simp at h
      simp [setN, h]
    · simp only [lookupN, if_neg hk] at h
      simp [setN, hk, ih h]

theorem subscribeAllF_eval (h : Heap) (s : Nat) (tokens cur : List Nat)
    (hcur : lookupN h.subs (h.getN s).subsRef = some cur) :
    subscribeAllF h s tokens =
      ⟨h.nodes, h.next, setN h.subs (h.getN s).subsRef (cur ++ tokens),
        h.subsNext⟩ := by
  induction tokens generalizing h cur with
  | nil =>
    simp only [subscribeAllF, List.foldl_nil, List.append_nil]
    rw [setN_lookup_self _ _ _ hcur]
  | cons t rest ih =>
    have hstep : subscribeF h s t =
        ⟨h.nodes, h.next, setN h.subs (h.getN s).subsRef (cur ++ [t]),
          h.subsNext⟩ := by
      rw [subscribeF_subs, hcur]
      rfl
    have hlookup : lookupN (subscribeF h s t).subs
        ((subscribeF h s t).getN s).subsRef = some (cur ++ [t]) := by
      rw [hstep]
      exact lookupN_setN_self _ _ _
    have := ih (subscribeF h s t) (cur ++ [t]) hlookup
    simp only [subscribeAllF, List.foldl_cons] at *
    rw [this, hstep]
    simp [setN_setN, Heap.getN, Heap.get, List.append_assoc]

/-- The two-child root with observers registered on child A (node 1,
tokens `sA`) and on the root (node 0, tokens `sR`). -/
def twoChildSubbed (fuel : Nat) (kA kB : String) (fA fB : List (String × RawVal))
    (sA sR : List Nat) : Heap :=
  subscribeAllF (subscribeAllF (twoChildBuild fuel kA kB fA fB).1 1 sA) 0 sR

theorem twoChildSubbed_eval (fuel : Nat) (kA kB : String)
    (fA fB : List (String × RawVal)) (sA sR : List Nat) (hfA : allPrim fA = true)
    (hfB : allPrim fB = true) :
    twoChildSubbed fuel kA kB fA fB sA sR =
      ⟨[(1, ⟨primEntries fA, .obj fA, kA, some 0, false, 0, []⟩),
        (2, ⟨primEntries fB, .obj fB, kB, some 0, false, 1, []⟩),
        (0, ⟨[(kA, .child 1), (kB, .child 2)], .obj [(kA, .obj fA), (kB, .obj fB)],
          "", none, false, 2, []⟩)],
        3, [(0, sA), (1, []), (2, sR)], 3⟩ := by
  unfold twoChildSubbed
  rw [show (twoChildBuild fuel kA kB fA fB).1 =
      ⟨[(1, ⟨primEntries fA, .obj fA, kA, some 0, false, 0, []⟩),
        (2, ⟨primEntries fB, .obj fB, kB, some 0, false, 1, []⟩),
        (0, ⟨[(kA, .child 1), (kB, .child 2)], .obj [(kA, .obj fA), (kB, .obj fB)],
          "", none, false, 2, []⟩)],
        3, [(0, []), (1, []), (2, [])], 3⟩ by
    rw [twoChildBuild_eval fuel kA kB fA fB hfA hfB]]
  rw [subscribeAllF_eval _ 1 sA [] (by norm_num [Heap.getN, Heap.get, lookupN])]
  norm_num [setN, Heap.getN, Heap.get, lookupN]
  rw [subscribeAllF_eval _ 0 sR [] (by norm_num [Heap.getN, Heap.get, lookupN])]
  norm_num [setN, Heap.getN, Heap.get, lookupN]

/-- Mutate child A of the subscribed two-child root through a direct
call with an object patch and a named action. -/
def twoChildNotified (fuel : Nat) (kA kB : String) (fA fB p : List (String × RawVal))
    (sA sR : List Nat) (act : String) : Heap × Option (Except Err Nat) × List Event :=
  spaceCallF (fuel + 1 + 1) (twoChildSubbed fuel kA kB fA fB sA sR) 1 (.obj p)
    (some act)

theorem twoChildNotified_eval (fuel : Nat) (kA kB : String)
    (fA fB p : List (String × RawVal)) (sA sR : List Nat) (act : String)
    (hfA : allPrim fA = true) (hfB : allPrim fB = true) (hp : allPrim p = true) :
    (twoChildNotified fuel kA kB fA fB p sA sR act).2.1 = some (.ok 3) ∧
    (twoChildNotified fuel kA kB fA fB p sA sR act).2.2 =
      sA.map (fun s => Event.mk s 3 (some 1) ("#" ++ act)) ++
      sR.map (fun s => Event.mk s 4 (some 0) (parentLabel kA ("#" ++ act))) := by
  unfold twoChildNotified spaceCallF
  rw [twoChildSubbed_eval fuel kA kB fA fB sA sR hfA hfB]
  simp only [isObjB, if_true, jsEntriesRaw, mergeAndNotifyF]
  rw [show newestSpaceF
      ⟨[(1, ⟨primEntries fA, .obj fA, kA, some 0, false, 0, []⟩),
        (2, ⟨primEntries fB, .obj fB, kB, some 0, false, 1, []⟩),
        (0, ⟨[(kA, .child 1), (kB, .child 2)], .obj [(kA, .obj fA), (kB, .obj fB)],
          "", none, false, 2, []⟩)],
        3, [(0, sA), (1, []), (2, sR)], 3⟩ 1 = 1 by
    norm_num [newestSpaceF, newestAux, newerHead, Heap.getN, Heap.get, lookupN]]
  rw [mergeChildA_eval fuel kA kB fA fB p _ _ hfA hfB hp]
  simp only [notifyF, Heap.subsOf, Heap.getN, Heap.get, lookupN, Option.getD_some,
    Option.some_bind]
  norm_num

/-- Claim C2: mutating child A (node 1) of the two-child root with
observers `sA` on the child and `sR` on the root (node 0) produces
exactly the notification trace `sA`-events followed by `sR`-events:
every observer of the child is invoked strictly before every observer
of the parent, at each node in registration order, and each
invocation carries the new node, the old node and the cause label
(the child's own label for `sA`, the parent-composed label for
`sR`). -/
theorem spaceace_c2_bottom_up_order (fuel : Nat) (kA kB : String)
    (fA fB p : List (String × RawVal)) (sA sR : List Nat) (act : String)
    (hfA : allPrim fA = true) (hfB : allPrim fB = true) (hp : allPrim p = true) :
    (twoChildNotified fuel kA kB fA fB p sA sR act).2.1 = some (.ok 3) ∧
    (twoChildNotified fuel kA kB fA fB p sA sR act).2.2 =
      sA.map (fun s => Event.mk s 3 (some 1) ("#" ++ act)) ++
      sR.map (fun s => Event.mk s 4 (some 0) (parentLabel kA ("#" ++ act))) :=
  twoChildNotified_eval fuel kA kB fA fB p sA sR act hfA hfB hp

/-- Witness for C2 at a concrete input. -/
theorem spaceace_c2_bottom_up_order_witness :
    (allPrim [("x", RawVal.num 1)] = true ∧ allPrim ([] : List (String × RawVal)) = true ∧
      allPrim [("x", RawVal.num 2)] = true) ∧
    ((twoChildNotified 0 "a" "b" [("x", RawVal.num 1)] [] [("x", RawVal.num 2)]
        [10, 11] [20] "myAction").2.1 = some (.ok 3) ∧
    (twoChildNotified 0 "a" "b" [("x", RawVal.num 1)] [] [("x", RawVal.num 2)]
        [10, 11] [20] "myAction").2.2 =
      [10, 11].map (fun s => Event.mk s 3 (some 1) ("#" ++ "myAction")) ++
      [20].map (fun s => Event.mk s 4 (some 0) (parentLabel "a" ("#" ++ "myAction")))) :=
  ⟨⟨by decide, by decide, by decide⟩,
    spaceace_c2_bottom_up_order 0 "a" "b" [("x", RawVal.num 1)] []
      [("x", RawVal.num 2)] [10, 11] [20] "myAction" (by decide) (by decide)
      (by decide)⟩

/-- Claim C4: applying a shallow-merge object patch to an array-kind
node raises `'You cannot merge onto an array, try replace instead?'`
and is atomic — the heap is returned unchanged (no new node is
created anywhere and no node's value changes) and no observer is
notified for that call. -/
theorem spaceace_c4_merge_onto_array (fuel : Nat) (h : Heap) (s : Nat)
    (p : List (String × RawVal)) (cb : String) (hArr : (h.getN s).isArr = true) :
    mergeSpaceV2 fuel h s p = (h, .error .mergeOntoArray) ∧
    mergeAndNotifyV2 (fuel + 1) h s p cb = (h, [], .error .mergeOntoArray) := by
  constructor
  · simp [mergeSpaceV2, hArr]
  · simp [mergeAndNotifyV2, mergeSpaceV2, hArr]

/-- Witness for C4 at a concrete input (an array-kind space built by
the v2 constructor). -/
theorem spaceace_c4_merge_onto_array_witness :
    (((mkSpaceV2 2 emptyHeap (RawVal.arr [RawVal.num 1]) "" none none).1.getN 0).isArr
        = true) ∧
    (mergeSpaceV2 3 (mkSpaceV2 2 emptyHeap (RawVal.arr [RawVal.num 1]) "" none none).1
        0 [("a", RawVal.num 7)] =
      ((mkSpaceV2 2 emptyHeap (RawVal.arr [RawVal.num 1]) "" none none).1,
        .error .mergeOntoArray) ∧
    mergeAndNotifyV2 4
        (mkSpaceV2 2 emptyHeap (RawVal.arr [RawVal.num 1]) "" none none).1 0
        [("a", RawVal.num 7)] "#m" =
      ((mkSpaceV2 2 emptyHeap (RawVal.arr [RawVal.num 1]) "" none none).1, [],
        .error .mergeOntoArray)) :=
  ⟨by rfl,
    spaceace_c4_merge_onto_array 3
      (mkSpaceV2 2 emptyHeap (RawVal.arr [RawVal.num 1]) "" none none).1 0
      [("a", RawVal.num 7)] "#m" (by rfl)⟩

theorem runSubsCancel_stops (cancels : Nat → Bool) (mk : Nat → Event)
    (pre post : List Nat) (s : Nat) (hpre : ∀ x ∈ pre, cancels x = false)
    (hs : cancels s = true) :
    runSubsCancel cancels mk (pre ++ s :: post) = ((pre ++ [s]).map mk, true) := by
  induction pre with
  | nil => simp [runSubsCancel, hs]
  | cons a rest ih =>
    have ha : cancels a = false := hpre a (List.mem_cons_self _ _)
    simp [runSubsCancel, ha, ih (fun x hx => hpre x (List.mem_cons_of_mem _ hx))]

/-- Claim C6 (spec-modelled): if, during the notification pass for one
change, the observer `s` signals cancellation (with every observer
registered before it not cancelling), then the trace of the pass is
exactly the observers up to and including `s` — no further observer
at that node is invoked and no observer of any ancestor node is
invoked for that change. -/
theorem spaceace_c6_cancellation (h : Heap) (cancels : Nat → Bool) (fuel newId : Nat)
    (oldId : Option Nat) (cb : String) (pre post : List Nat) (s : Nat)
    (hsubs : h.subsOf newId = pre ++ s :: post)
    (hpre : ∀ x ∈ pre, cancels x = false) (hs : cancels s = true) :
    notifyCancelF h cancels (fuel + 1) newId oldId cb =
      (pre ++ [s]).map (fun x => Event.mk x newId oldId cb) := by
  simp only [notifyCancelF, hsubs, runSubsCancel_stops cancels _ pre post s hpre hs]
  simp

/-- Witness for C6 at a concrete input: observers 10, 11, 12 on the
child node, observer 20 on the root; observer 11 cancels. -/
theorem spaceace_c6_cancellation_witness :
    ((twoChildSubbed 0 "a" "b" [("x", RawVal.num 1)] [] [10, 11, 12] [20]).subsOf 1 =
        [10] ++ 11 :: [12] ∧
      (∀ x ∈ [10], (fun t => t == 11) x = false) ∧ ((fun t => t == 11) 11 = true)) ∧
    notifyCancelF (twoChildSubbed 0 "a" "b" [("x", RawVal.num 1)] [] [10, 11, 12] [20])
        (fun t => t == 11) 2 1 none "#myAction" =
      ([10] ++ [11]).map (fun x => Event.mk x 1 none "#myAction") :=
  ⟨⟨by rfl, by decide, by decide⟩,
    spaceace_c6_cancellation
      (twoChildSubbed 0 "a" "b" [("x", RawVal.num 1)] [] [10, 11, 12] [20])
      (fun t => t == 11) 1 1 none "#myAction" [10] [12] 11 (by rfl) (by decide)
      (by decide)⟩

/-- Claim C8: an update with patch `undefined` is a complete no-op —
`mergeState` returns without touching any state and without
notifying; calling a space with `undefined` leaves the heap
untouched, returns no new space, and fires no events; and the action
wrapper itself, for an action that performs no bundle calls and
returns nothing, creates no space and fires nothing. -/
theorem spaceace_c8_undefined_noop (fuel : Nat) (pre : V3) (hasKey : Bool)
    (parentPre : Option V3) (h : Heap) (s : Nat) (an : Option String) :
    mergeStateV3 fuel pre hasKey parentPre .undefArg = .ok (pre, parentPre, false) ∧
    spaceCallF fuel h s .undef an = (h, none, []) ∧
    actionWrapperF h s (fun hh => (hh, .undef)) = (h, newestSpaceF h s) := by
  refine ⟨rfl, ?_, rfl⟩
  simp [spaceCallF, isObjB]

/-- Claim C10: `subscribe` appends the new observer and synchronously
invokes it exactly once with the cause label `'initialized'` — unless
the space was constructed with `skipInitialNotification`, in which
case no initial invocation happens. -/
theorem spaceace_c10_initial_notification (opts : OptionsV1) (subscribers : List Nat)
    (sub : Nat) :
    (subscribeV1 opts subscribers sub).1 = subscribers ++ [sub] ∧
    (subscribeV1 opts subscribers sub).2 =
      (if opts.skipInitialNotification then [] else ["initialized"]) ∧
    (opts.skipInitialNotification = false →
      (subscribeV1 opts subscribers sub).2 = ["initialized"] ∧
      ((subscribeV1 opts subscribers sub).2).length = 1) ∧
    (opts.skipInitialNotification = true →
      (subscribeV1 opts subscribers sub).2 = []) := by
  refine ⟨rfl, ?_, ?_, ?_⟩
  · simp [subscribeV1]
  · intro hskip
    simp [subscribeV1, hskip]
  · intro hskip
    simp [subscribeV1, hskip]

/-- Witness for C10 at a concrete input. -/
theorem spaceace_c10_initial_notification_witness :
    ((⟨false⟩ : OptionsV1).skipInitialNotification = false ∧
      (⟨true⟩ : OptionsV1).skipInitialNotification = true) ∧
    ((subscribeV1 ⟨false⟩ [7] 8).1 = [7] ++ [8] ∧
      (subscribeV1 ⟨false⟩ [7] 8).2 = ["initialized"] ∧
      (subscribeV1 ⟨true⟩ [7] 8).2 = []) :=
  ⟨⟨rfl, rfl⟩,
    (spaceace_c10_initial_notification ⟨false⟩ [7] 8).1,
    ((spaceace_c10_initial_notification ⟨false⟩ [7] 8).2.2.1 rfl).1,
    (spaceace_c10_initial_notification ⟨true⟩ [7] 8).2.2.2 rfl⟩

theorem jsSplice1_ofNat (l : List V3) (i : Nat) (hi : i < l.length) :
    jsSplice1 l (Int.ofNat i) = l.eraseIdx i := by
  have h1 : ¬ ((Int.ofNat i) < 0) := not_lt.mpr (Int.ofNat_nonneg i)
  have h2 : min (Int.ofNat i) ((l.length : Nat) : Int) = Int.ofNat i :=
    min_eq_left (Int.ofNat_le.mpr hi.le)
  simp only [jsSplice1, if_neg h1, h2]
  rfl

theorem lookupA_filter_none {α : Type} (g : List (String × α)) (k : String)
    (p : String × α → Bool) (hg : lookupA g k = none) :
    lookupA (g.filter p) k = none := by
  induction g with
  | nil => rfl
  | cons kv rest ih =>
    simp only [lookupA] at hg
    by_cases hk : kv.1 = k
    · simp [hk] at hg
    · simp only [lookupA, if_neg hk] at hg
      by_cases hp : p kv
      · simp [List.filter_cons, hp, lookupA, hk, ih hg]
      · simp [List.filter_cons, hp, ih hg]

theorem lookupA_delete_self (g : List (String × V3)) (k : String) :
    lookupA (g.filter (fun kv => kv.1 ≠ k)) k = none := by
  induction g with
  | nil => rfl
  | cons kv rest ih =>
    simp only [List.filter_cons]
    by_cases hk : kv.1 = k
    · rw [if_neg (by simp [hk])]
      exact ih
    · rw [if_pos (by simp [hk])]
      simp only [lookupA, if_neg hk]
      exact ih

/-- The null-deletion loop of `mergeState` keeps an object-shaped
`preState` object-shaped, and once the key is deleted it stays
absent. -/
theorem foldDelete_keep (fields : List (String × V3)) (g : List (String × V3))
    (k : String) (hg : lookupA g k = none) :
    ∃ g2, fields.foldl
        (fun acc kv => if isNullV3 kv.2 then deleteKeyV3 acc kv.1 else acc)
        (V3.objv g) = V3.objv g2 ∧ lookupA g2 k = none := by
  induction fields generalizing g with
  | nil => exact ⟨g, rfl, hg⟩
  | cons kv rest ih =>
    simp only [List.foldl_cons]
    by_cases hn : isNullV3 kv.2
    · simp only [if_pos hn, deleteKeyV3]
      exact ih _ (lookupA_filter_none _ _ _ hg)
    · simp only [if_neg hn]
      exact ih _ hg

/-- After the null-deletion loop, a key whose patch value is `null`
is absent from the `preState`. -/
theorem foldDelete_absent (fields : List (String × V3)) (g : List (String × V3))
    (k : String) (hk : lookupA fields k = some (V3.prim RawVal.null)) :
    ∃ g2, fields.foldl
        (fun acc kv => if isNullV3 kv.2 then deleteKeyV3 acc kv.1 else acc)
        (V3.objv g) = V3.objv g2 ∧ lookupA g2 k = none := by
  induction fields generalizing g with
  | nil => simp [lookupA] at hk
  | cons kv rest ih =>
    simp only [List.foldl_cons]
    by_cases hke : kv.1 = k
    · simp only [lookupA, if_pos hke, Option.some.injEq] at hk
      rw [hk]
      have hn : isNullV3 (V3.prim RawVal.null) = true := rfl
      rw [if_pos hn]
      simp only [deleteKeyV3]
      subst hke
      exact foldDelete_keep rest _ _ (lookupA_delete_self _ _)
    · simp only [lookupA, if_neg hke] at hk
      by_cases hn : isNullV3 kv.2
      · simp only [if_pos hn, deleteKeyV3]
        exact ih _ hk
      · simp only [if_neg hn]
        exact ih _ hk

theorem applyStep_obj (am : V3 → V3 → V3) (g0 : List (String × V3)) (k2 : String)
    (mv : V3) :
    ∃ w, (match getKeyV3 (V3.objv g0) k2 with
      | some (.spacev inner) => setKeyV3 (V3.objv g0) k2 (.spacev (am inner mv))
      | _ => setKeyV3 (V3.objv g0) k2 mv) = V3.objv (setA g0 k2 w) := by
  cases h : getKeyV3 (V3.objv g0) k2 with
  | none => exact ⟨mv, by simp [h, setKeyV3]⟩
  | some v =>
    cases v with
    | spacev inner => exact ⟨.spacev (am inner mv), by simp [h, setKeyV3]⟩
    | prim p => exact ⟨mv, by simp [h, setKeyV3]⟩
    | objv fs => exact ⟨mv, by simp [h, setKeyV3]⟩
    | arrv items => exact ⟨mv, by simp [h, setKeyV3]⟩

/-- `applyMerge` never touches a key absent from the patch. -/
theorem applyMergeFieldsWith_lookup_not_mem (am : V3 → V3 → V3)
    (g0 m : List (String × V3)) (k : String) (hk : k ∉ m.map Prod.fst) :
    getKeyV3 (applyMergeFieldsWith am (.objv g0) m) k = lookupA g0 k := by
  induction m generalizing g0 with
  | nil => rfl
  | cons kv rest ih =>
    simp only [List.map_cons, List.mem_cons, not_or] at hk
    obtain ⟨w, hw⟩ := applyStep_obj am g0 kv.1 kv.2
    simp only [applyMergeFieldsWith]
    rw [hw, ih _ hk.2, lookupA_setA_other _ _ _ _ (fun he => hk.1 he.symm)]

theorem not_mem_filter_nonnull (m : List (String × V3)) (k : String)
    (hnd : (m.map Prod.fst).Nodup)
    (hk : lookupA m k = some (V3.prim RawVal.null)) :
    k ∉ (m.filter (fun kv => !isNullV3 kv.2)).map Prod.fst := by
  induction m with
  | nil => simp [lookupA] at hk
  | cons kv rest ih =>
    simp only [List.map_cons, List.nodup_cons] at hnd
    by_cases hke : kv.1 = k
    · simp only [lookupA, if_pos hke, Option.some.injEq] at hk
      have hcond : (!isNullV3 kv.2) = false := by rw [hk]; rfl
      rw [List.filter_cons, if_neg (by simp [hcond])]
      intro hmem
      simp only [List.mem_map] at hmem
      obtain ⟨kv2, hkv2, hfst⟩ := hmem
      apply hnd.1
      have hm2 : kv2.1 ∈ List.map Prod.fst rest :=
        List.mem_map_of_mem _ (List.mem_of_mem_filter hkv2)
      rw [hfst] at hm2
      rw [hke]
      exact hm2
    · simp only [lookupA, if_neg hke] at hk
      by_cases hn : isNullV3 kv.2 = true
      · rw [List.filter_cons, if_neg (by simp [hn])]
        exact ih hnd.2 hk
      · rw [List.filter_cons, if_pos (by simp [hn])]
        simp only [List.map_cons, List.mem_cons, not_or]
        exact ⟨fun he => hke he.symm, ih hnd.2 hk⟩

/-- Claim C7: applying the patch `null` to a node that is an item of
a parent list (it has the `key` getter and a truthy `state.id`)
removes that item from the parent's list, located by its id and
spliced out — so a one-element list becomes empty — and applying
`null` to an addressed key of an object-kind node deletes that key
from the node's value. -/
theorem spaceace_c7_null_removal (fuel : Nat) (pre : V3) (list : List V3) (i : Nat)
    (g fields : List (String × V3)) (pp : Option V3) (k : String)
    (hid : jsTruthy (getStateIdV3 (fuel + 1) pre) = true)
    (hfind : findIndexByIdV3 (fuel + 1) list (getStateIdV3 (fuel + 1) pre) =
      Int.ofNat i)
    (hlen : i < list.length)
    (hnd : (fields.map Prod.fst).Nodup)
    (hkm : lookupA fields k = some (V3.prim RawVal.null))
    (hchk : checkListsV3 (fuel + 1) fields = .ok ()) :
    mergeStateV3 (fuel + 1) pre true (some (.arrv list)) .nullArg =
      .ok (pre, some (.arrv (list.eraseIdx i)), true) ∧
    (list.eraseIdx i).length = list.length - 1 ∧
    (list.length = 1 → list.eraseIdx i = []) ∧
    (∃ res, mergeStateV3 (fuel + 1) (.objv g) false pp (.valArg (.objv fields)) =
        .ok (res, pp, true) ∧ getKeyV3 res k = none) := by
  refine ⟨?_, by rw [List.length_eraseIdx, if_pos hlen], ?_, ?_⟩
  · simp only [mergeStateV3, hid, Bool.and_self, if_pos, hfind,
      jsSplice1_ofNat list i hlen]
    simp [hid]
  · intro h1
    have hi0 : i = 0 := by omega
    subst hi0
    cases list with
    | nil => simp at h1
    | cons x rest =>
      simp at h1
      simp [h1]
  · obtain ⟨g2, hg2, habs⟩ := foldDelete_absent fields g k hkm
    refine ⟨applyMergeV3 (fuel + 1) (V3.objv g2)
      (.objv (fields.filter (fun kv => !isNullV3 kv.2))), ?_, ?_⟩
    · simp only [mergeStateV3, hchk, hg2]
    · simp only [applyMergeV3, keysOfV3]
      rw [applyMergeFieldsWith_lookup_not_mem _ _ _ _
        (not_mem_filter_nonnull fields k hnd hkm)]
      exact habs

/-- Witness for C7 at a concrete input: a one-element list whose item
has id `"x"`, and an object patch `{ gone: null }`. -/
theorem spaceace_c7_null_removal_witness :
    (jsTruthy (getStateIdV3 2 (.objv [("id", .prim (.str "x"))])) = true ∧
      findIndexByIdV3 2 [.spacev (.objv [("id", .prim (.str "x"))])]
        (getStateIdV3 2 (.objv [("id", .prim (.str "x"))])) = Int.ofNat 0 ∧
      (0 : Nat) < [V3.spacev (.objv [("id", .prim (.str "x"))])].length ∧
      ([("gone", V3.prim RawVal.null), ("keep", V3.prim (RawVal.num 2))].map
        Prod.fst).Nodup ∧
      lookupA [("gone", V3.prim RawVal.null), ("keep", V3.prim (RawVal.num 2))]
        "gone" = some (V3.prim RawVal.null) ∧
      checkListsV3 2 [("gone", V3.prim RawVal.null),
        ("keep", V3.prim (RawVal.num 2))] = .ok ()) ∧
    (mergeStateV3 2 (.objv [("id", .prim (.str "x"))]) true
        (some (.arrv [.spacev (.objv [("id", .prim (.str "x"))])])) .nullArg =
      .ok (.objv [("id", .prim (.str "x"))],
        some (.arrv ([V3.spacev (.objv [("id", .prim (.str "x"))])].eraseIdx 0)),
        true) ∧
    ([V3.spacev (.objv [("id", .prim (.str "x"))])].eraseIdx 0).length =
      [V3.spacev (.objv [("id", .prim (.str "x"))])].length - 1 ∧
    ([V3.spacev (.objv [("id", .prim (.str "x"))])].length = 1 →
      [V3.spacev (.objv [("id", .prim (.str "x"))])].eraseIdx 0 = []) ∧
    (∃ res, mergeStateV3 2 (.objv [("gone", .prim (.num 9))]) false none
        (.valArg (.objv [("gone", V3.prim RawVal.null),
          ("keep", V3.prim (RawVal.num 2))])) = .ok (res, none, true) ∧
      getKeyV3 res "gone" = none)) :=
  ⟨⟨by simp [getStateIdV3, generateStateV3, generateStateV3.generateItemV3, getKeyV3,
        lookupA, jsTruthy],
    by simp [findIndexByIdV3, findIndexByIdV3.go, itemIdOrKeyV3, getStateIdV3,
        generateStateV3, generateStateV3.generateItemV3, getKeyV3, lookupA, jsValToString],
    by decide, by decide, by rfl, by rfl⟩,
    spaceace_c7_null_removal 1 (.objv [("id", .prim (.str "x"))])
      [.spacev (.objv [("id", .prim (.str "x"))])] 0 [("gone", .prim (.num 9))]
      [("gone", V3.prim RawVal.null), ("keep", V3.prim (RawVal.num 2))] none "gone"
      (by simp [getStateIdV3, generateStateV3, generateStateV3.generateItemV3, getKeyV3,
        lookupA, jsTruthy])
      (by simp [findIndexByIdV3, findIndexByIdV3.go, itemIdOrKeyV3, getStateIdV3,
        generateStateV3, generateStateV3.generateItemV3, getKeyV3, lookupA, jsValToString])
      (by decide) (by decide) (by rfl) (by rfl)⟩

/-- Claim C5 counterexample: a child named `"0"` (a list index) is not
a simple identifier, yet the label composed for the parent's
observers brackets it without quotes — the delivered label is
`[0]#myAction`, not `["0"]#myAction` as the claim's quoting rule
states. -/
theorem spaceace_c5_label_counterexample :
    isSimpleName "0" = false ∧
    (twoChildNotified 0 "0" "b" [("x", RawVal.num 1)] [] [("x", RawVal.num 2)]
        [] [20] "myAction").2.2 =
      [Event.mk 20 4 (some 0) "[0]#myAction"] ∧
    "[0]#myAction" ≠ "[\"0\"]#myAction" := by
  refine ⟨by decide, ?_, by decide⟩
  rw [(twoChildNotified_eval 0 "0" "b" [("x", RawVal.num 1)] [] [("x", RawVal.num 2)]
    [] [20] "myAction" (by decide) (by decide) (by decide)).2]
  rfl

/-- A primitive argument passes through `extractEventValue` unchanged:
it has no `target` attribute, so the DOM-event branch is skipped. -/
theorem extractEventValue_prim (v : RawVal) (hv : isPrimB v = true) :
    extractEventValue v = v := by
  cases v <;> simp_all [extractEventValue, isPrimB, getFieldRaw, jsTruthy]

/-- The subscribed primitive root mutated through the quick-field
setter (`space('count')(value)`). -/
def primRootSet (fuel : Nat) (fs : List (String × RawVal)) (sR : List Nat)
    (key : String) (v : RawVal) : Heap × Except Err Nat × List Event :=
  attrSetterF (fuel + 1) (subscribeAllF (primRootBuild fuel fs).1 0 sR) 0 key v

/-- Claim C5 (amended): the quick-field setter for key `key` invoked
on the subscribed root delivers exactly the label `"#set:" ++ key` to
the root's observers; a named custom action `act` on a list item
fetched by id composes the label `listName ++ "[" ++ id ++ "]#" ++
act`; and the parent-label step brackets a child name that is not a
simple identifier — with quotes only when it is also not numeric, a
numeric name (list index) is bracketed without quotes — and inserts
the `.` separator exactly when the child's label starts with neither
`#` nor `[`. -/
theorem spaceace_c5_label_composition (fuel : Nat) (fs : List (String × RawVal))
    (sR : List Nat) (key : String) (v : RawVal) (listName idv act name cb : String)
    (hfs : allPrim fs = true) (hv : isPrimB v = true) (hact : act ≠ "") :
    (primRootSet fuel fs sR key v).2.1 = .ok 1 ∧
    (primRootSet fuel fs sR key v).2.2 =
      sR.map (fun t => Event.mk t 1 (some 0) ("#set:" ++ key)) ∧
    actionLogV3 (subSpaceNameV3 listName true idv) (some act) =
      listName ++ "[" ++ idv ++ "]" ++ "#" ++ act ∧
    parentLabel name cb =
      (if isSimpleName name then name
       else if isNumericName name then "[" ++ name ++ "]"
       else "[" ++ ("\"" ++ name ++ "\"") ++ "]") ++
      (if cb.front ≠ '#' ∧ cb.front ≠ '[' then "." ++ cb else cb) := by
  have hsub : subscribeAllF (primRootBuild fuel fs).1 0 sR =
      ⟨[(0, ⟨primEntries fs, .obj fs, "", none, false, 0, []⟩)], 1, [(0, sR)], 1⟩ := by
    rw [show (primRootBuild fuel fs).1 =
        ⟨[(0, ⟨primEntries fs, .obj fs, "", none, false, 0, []⟩)], 1, [(0, [])], 1⟩ by
      rw [primRootBuild_eval fuel fs hfs]]
    rw [subscribeAllF_eval _ 0 sR [] (by norm_num [Heap.getN, Heap.get, lookupN])]
    norm_num [setN, Heap.getN, Heap.get, lookupN]
  have hall : allPrim [(key, v)] = true := by
    simp [allPrim, hv]
  have hmain : primRootSet fuel fs sR key v =
      (Heap.unshiftNewer
        ⟨setN [(0, ⟨primEntries fs, .obj fs, "", none, false, 0, []⟩)] 1
            ⟨primEntries (objAssign fs [(key, v)]),
              .obj (objAssign fs [(key, v)]), "", none, false, 0, []⟩,
          2, [(0, sR)], 1⟩ 0 1,
        .ok 1,
        sR.map (fun t => Event.mk t 1 (some 0) ("#set:" ++ key))) := by
    unfold primRootSet attrSetterF mergeAndNotifyF
    rw [hsub]
    simp only [extractEventValue_prim v hv]
    rw [show newestSpaceF
        (⟨[(0, ⟨primEntries fs, .obj fs, "", none, false, 0, []⟩)], 1, [(0, sR)], 1⟩ :
          Heap) 0 = 0 by
      norm_num [newestSpaceF, newestAux, newerHead, Heap.getN, Heap.get, lookupN]]
    rw [mergeSpaceF_prim_eval fuel _ 0 fs [(key, v)] (by rfl) (by rfl) hfs hall]
    norm_num [notifyF, Heap.subsOf, Heap.unshiftNewer, Heap.setNode, setN, Heap.getN,
      Heap.get, lookupN]
  refine ⟨by rw [hmain], by rw [hmain], by simp [actionLogV3, subSpaceNameV3, hact], ?_⟩
  have hbase : (if isSimpleName name then name
      else "[" ++ (if isNumericName name then name else "\"" ++ name ++ "\"") ++ "]") =
    (if isSimpleName name then name
     else if isNumericName name then "[" ++ name ++ "]"
     else "[" ++ ("\"" ++ name ++ "\"") ++ "]") := by
    by_cases h1 : isSimpleName name = true
    · rw [if_pos h1, if_pos h1]
    · rw [if_neg h1, if_neg h1]
      by_cases h2 : isNumericName name = true
      · rw [if_pos h2, if_pos h2]
      · rw [if_neg h2, if_neg h2]
  simp only [parentLabel, hbase]
  by_cases hd : cb.front ≠ '#' ∧ cb.front ≠ '['
  · rw [if_pos hd, if_pos hd, String.append_assoc]
  · rw [if_neg hd, if_neg hd]

/-- Witness for the amended C5 at a concrete input: the setter for
`count` on the root, the action `myAction` on the list item with id
`abc12-3` of field `list`, and the non-simple non-numeric child name
`my-field` with a child label starting with an ordinary letter. -/
theorem spaceace_c5_label_composition_witness :
    (allPrim [("count", RawVal.num 1)] = true ∧ isPrimB (RawVal.num 5) = true ∧
      "myAction" ≠ "") ∧
    ((primRootSet 0 [("count", RawVal.num 1)] [20] "count" (RawVal.num 5)).2.1 =
        .ok 1 ∧
    (primRootSet 0 [("count", RawVal.num 1)] [20] "count" (RawVal.num 5)).2.2 =
      [20].map (fun t => Event.mk t 1 (some 0) ("#set:" ++ "count")) ∧
    actionLogV3 (subSpaceNameV3 "list" true "abc12-3") (some "myAction") =
      "list" ++ "[" ++ "abc12-3" ++ "]" ++ "#" ++ "myAction" ∧
    parentLabel "my-field" "set" =
      (if isSimpleName "my-field" then "my-field"
       else if isNumericName "my-field" then "[" ++ "my-field" ++ "]"
       else "[" ++ ("\"" ++ "my-field" ++ "\"") ++ "]") ++
      (if ("set" : String).front ≠ '#' ∧ ("set" : String).front ≠ '[' then
        "." ++ "set" else "set")) :=
  ⟨⟨by decide, by decide, by decide⟩,
    spaceace_c5_label_composition 0 [("count", RawVal.num 1)] [20] "count"
      (RawVal.num 5) "list" "abc12-3" "myAction" "my-field" "set"
      (by decide) (by decide) (by decide)⟩

end SpaceAce
